import Mathlib

/-!
# PromptScript: a shallow embedding of the core runtime, checked against its spec

This file embeds, in Lean, the parts of the PromptScript repository that the
spec's claims are about:

* the sandbox path resolution (`sandbox.ts`: `safeResolve`),
* the file tools (`tools.ts`: `READ_FILE`, `WRITE_FILE`, `PATCH_FILE`) over an
  explicit file-system state,
* the DSL tokenizer (`dsl/tokenizer.ts`),
* the loop detector (`runtime/loop-detector.ts`),
* the tree-walking interpreter (`dsl/vm.ts`): values, JS coercions, the
  statement tick with budget checks, tool dispatch with policy checks,
  `with policy` save/overlay/restore, and function calls,
* the sub-workflow executor's argument pre-binding step (`runtime/subworkflow.ts`).

Modelling conventions:

* Machine-level aspects with no observable effect on the verified properties
  are dropped: wall-clock timestamps (`ts` fields, `maxTimeMs` elapsed time is
  taken as 0), the floating-point `maxCostUsd` estimate, stdout logging, and
  the on-disk JSONL encoding of events.
* JavaScript dynamic values are modelled by the inductive `Value`; JS numbers
  are modelled as integers (every number the embedded programs produce is an
  integer: the tokenizer only produces decimal integer literals and `+` on
  numbers is the only arithmetic).
* The interpreter and tokenizer take a fuel parameter for termination; fuel
  exhaustion is a distinguished outcome that no theorem ever exercises (all
  concrete runs are given ample fuel).
* Fallible code returns `Except`; thrown JS errors carry their message string.
-/

namespace PromptScript

/-! ## Dynamic values (vm.ts `type Value = any`)

The DSL's runtime values: null, booleans, numbers, strings, arrays and plain
objects (ordered key/value lists, later assignments overwrite).  Function
values, class instances and LLM-client marker objects are not represented;
the embedded builtins and programs never produce them. -/

inductive Value where
  | vnull
  | vbool (b : Bool)
  | vnum (n : Int)
  | vstr (s : String)
  | varr (items : List Value)
  | vobj (pairs : List (String × Value))
deriving Repr

/-- JS `Boolean(v)` — the truthiness coercion used by the interpreter for
`if`/`while` conditions, `guard`, unary `not` and the `and`/`or` operators.
Note: in JavaScript every object is truthy, so `[]` and `{}` coerce to
`true`. -/
def jsBool : Value → Bool
  | .vnull => false
  | .vbool b => b
  | .vnum n => n != 0
  | .vstr s => s != ""
  | .varr _ => true
  | .vobj _ => true

/-- JS `typeof v` (note `typeof null === "object"`). -/
def jsTypeof : Value → String
  | .vnull => "object"
  | .vbool _ => "boolean"
  | .vnum _ => "number"
  | .vstr _ => "string"
  | .varr _ => "object"
  | .vobj _ => "object"

/-- JS `l === r`.  On primitives this is structural equality.  On arrays and
objects `===` is reference identity; the embedding carries no aliasing
information, distinct evaluations always yield distinct references, and no
theorem in this file compares composite values, so those cases are modelled
as `false`. -/
def jsStrictEq : Value → Value → Bool
  | .vnull, .vnull => true
  | .vbool a, .vbool b => a == b
  | .vnum a, .vnum b => a == b
  | .vstr a, .vstr b => a == b
  | _, _ => false

/-! ### String helpers

Lean core's `String.startsWith`, `splitOn`, `trim`, `replace`, … are compiled
by well-founded recursion on byte positions and do not reduce inside the
kernel, so the embedding spells the handful of string primitives it needs as
structurally recursive functions on the underlying character lists.  Each is
the exact JavaScript / Node semantics of the operation it names. -/

def digitsOfChars (cs : List Char) : Nat :=
  cs.foldl (fun acc c => acc * 10 + (c.toNat - 48)) 0

def digitsToNat (s : String) : Nat := digitsOfChars s.data

/-- JS `s.startsWith(pre)`. -/
def strStartsWith (s pre : String) : Bool := pre.data.isPrefixOf s.data

/-- JS `s.slice(n)` / Lean `String.drop` for character counts. -/
def strDrop (s : String) (n : Nat) : String := ⟨s.data.drop n⟩

/-- Join with a separator (`Array.prototype.join` / `String.intercalate`). -/
def strJoin (sep : String) : List String → String
  | [] => ""
  | [x] => x
  | x :: rest => x ++ sep ++ strJoin sep rest

def splitOnCharAux (c : Char) : List Char → List Char → List (List Char)
  | [], acc => [acc.reverse]
  | x :: rest, acc =>
    if x = c then acc.reverse :: splitOnCharAux c rest []
    else splitOnCharAux c rest (x :: acc)

/-- `s.split(c)` for a single-character separator. -/
def splitOnChar (c : Char) (s : String) : List String :=
  (splitOnCharAux c s.data []).map (fun l => ⟨l⟩)

/-- `src.replaceAll("\r\n", "\n")`. -/
def normalizeCRLF : List Char → List Char
  | '\r' :: '\n' :: rest => '\n' :: normalizeCRLF rest
  | c :: rest => c :: normalizeCRLF rest
  | [] => []

def isWhitespaceChar (c : Char) : Bool := c = ' ' ∨ c = '\t' ∨ c = '\n' ∨ c = '\r'

/-- JS `s.trim()` (for the whitespace characters that can occur here). -/
def trimChars (l : List Char) : List Char :=
  ((l.dropWhile isWhitespaceChar).reverse.dropWhile isWhitespaceChar).reverse

/-- Substring containment (JS `s.includes(t)`; the empty string is contained
in everything). -/
def containsSub (s t : List Char) : Bool :=
  if t.isPrefixOf s then true
  else
    match s with
    | [] => false
    | _ :: rest => containsSub rest t


mutual
/-- JS `String(v)`.  Arrays stringify as their elements joined with `","`
(`null` elements stringify to the empty string); plain objects stringify to
`"[object Object]"`. -/
def jsToString : Value → String
  | .vnull => "null"
  | .vbool b => if b then "true" else "false"
  | .vnum n => toString n
  | .vstr s => s
  | .varr items => strJoin "," (jsToStringList items)
  | .vobj _ => "[object Object]"

def jsToStringList : List Value → List String
  | [] => []
  | .vnull :: rest => "" :: jsToStringList rest
  | v :: rest => jsToString v :: jsToStringList rest
end

/-- JS `Number(s)` on a string, restricted to optionally-signed decimal
integers: the trimmed empty string is `0`, non-numeric strings are NaN
(`none`).  Fractional and exotic numeric syntax is not modelled; no embedded
program produces such strings in a numeric position. -/
def jsParseNumber (s : String) : Option Int :=
  let t := trimChars s.data
  if t.isEmpty then some 0
  else
    match t with
    | '-' :: rest =>
      if !rest.isEmpty && rest.all Char.isDigit then some (-(digitsOfChars rest : Int))
      else none
    | _ => if t.all Char.isDigit then some (digitsOfChars t : Int) else none

/-- JS `Number(v)`; `none` is NaN.  Coercion of arrays and objects (via
`toString`) is not modelled — no embedded program compares composites. -/
def jsToNumber : Value → Option Int
  | .vnull => some 0
  | .vbool b => some (if b then 1 else 0)
  | .vnum n => some n
  | .vstr s => jsParseNumber s
  | .varr _ => none
  | .vobj _ => none

/-! ## Association lists

JS `Map` and plain objects are modelled as ordered association lists; `set`
overwrites in place or appends, matching `Map` insertion-order semantics. -/

def alistGet {α : Type} : List (String × α) → String → Option α
  | [], _ => none
  | (k, v) :: rest, n => if k = n then some v else alistGet rest n

def alistSet {α : Type} : List (String × α) → String → α → List (String × α)
  | [], n, v => [(n, v)]
  | (k, w) :: rest, n, v =>
    if k = n then (k, v) :: rest else (k, w) :: alistSet rest n v

/-! ## Sandbox (sandbox.ts)

`safeResolve` uses Node's POSIX `path.resolve`: the path is joined to the
(absolute) project root unless it is itself absolute, and the result is
normalized — empty and `"."` segments are dropped, `".."` pops a segment
(clamping at the filesystem root).  Wrapping the theorems, roots are always
absolute strings, so the `process.cwd()` fallback of `path.resolve` never
applies. -/

def normSegsAux : List String → List String → List String
  | [], acc => acc.reverse
  | s :: rest, acc =>
    if s = "" ∨ s = "." then normSegsAux rest acc
    else if s = ".." then normSegsAux rest (acc.drop 1)
    else normSegsAux rest (s :: acc)

/-- POSIX `path.resolve(root, p)` for an absolute `root`. -/
def posixResolve (root p : String) : String :=
  let joined := if strStartsWith p "/" then p else root ++ "/" ++ p
  "/" ++ strJoin "/" (normSegsAux (splitOnChar '/' joined) [])

/-- sandbox.ts `safeResolve(projectRoot, userPath)`: the resolved path must be
a strict descendant of `resolve(projectRoot) + "/"`, otherwise the call throws
`Path escape blocked`. -/
def safeResolve (projectRoot userPath : String) : Except String String :=
  let resolved := posixResolve projectRoot userPath
  let root := posixResolve projectRoot "" ++ "/"
  if strStartsWith resolved root then .ok resolved
  else .error ("Path escape blocked: " ++ userPath)

/-- sandbox.ts `isSensitivePath`. -/
def isSensitivePath (rel : String) : Bool :=
  strStartsWith rel ".git" || strStartsWith rel "node_modules"

/-! ## Policy and the file-system state -/

/-- The tool-context policy (tools.ts `ToolContext.policy`).  The allow lists
are lists of runtime values: the TypeScript annotation says `string[]`, but a
`with policy` overlay copies whatever array the script supplied, so membership
tests use JS `===` against the (string) tool name. -/
structure Policy where
  allowTools : List Value
  allowCommands : List Value
  requireApproval : Bool
  maxFileBytes : Int
deriving Repr

/-- The disk as a map from absolute resolved paths to file contents.
Directories, permissions and binary data are not modelled: the embedded tools
only ever read and write whole UTF-8 files (`mkdir -p` of parent directories
always succeeds, absent paths are ENOENT). -/
abbrev FS := List (String × String)

def fsGet (fs : FS) (p : String) : Option String := alistGet fs p

def fsSet (fs : FS) (p : String) (content : String) : FS := alistSet fs p content

/-! ## File tools (tools.ts)

Each tool's zod schema is embedded as a parser from a dynamic `Value` to a
typed argument structure; zod strips unknown keys and rejects missing or
ill-typed fields.  The exact ZodError message text is not reproduced — parse
failures carry a generic `SchemaError` marker and no theorem inspects that
text. -/

structure ReadFileArgs where
  path : String
  maxBytes : Option Int
deriving Repr

structure WriteFileArgs where
  path : String
  content : String
  mode : Option String
deriving Repr

structure PatchFileArgs where
  path : String
  patch : String
deriving Repr

/-- zod `z.string().min(1)` on a required object field. -/
def zodStringMin1 (pairs : List (String × Value)) (key : String) : Except String String :=
  match alistGet pairs key with
  | some (.vstr s) => if s.length ≥ 1 then .ok s else .error ("SchemaError: " ++ key)
  | _ => .error ("SchemaError: " ++ key)

/-- zod `z.string()` on a required object field. -/
def zodString (pairs : List (String × Value)) (key : String) : Except String String :=
  match alistGet pairs key with
  | some (.vstr s) => .ok s
  | _ => .error ("SchemaError: " ++ key)

/-- zod `z.number().int().positive().max(hi).optional()`. -/
def zodPosIntMax (pairs : List (String × Value)) (key : String) (hi : Int) :
    Except String (Option Int) :=
  match alistGet pairs key with
  | none => .ok none
  | some (.vnum n) => if 0 < n ∧ n ≤ hi then .ok (some n) else .error ("SchemaError: " ++ key)
  | some _ => .error ("SchemaError: " ++ key)

/-- zod `z.enum(["overwrite", "create_only"]).optional()`. -/
def zodModeEnum (pairs : List (String × Value)) (key : String) : Except String (Option String) :=
  match alistGet pairs key with
  | none => .ok none
  | some (.vstr s) =>
    if s = "overwrite" ∨ s = "create_only" then .ok (some s)
    else .error ("SchemaError: " ++ key)
  | some _ => .error ("SchemaError: " ++ key)

def parseReadFileArgs (v : Value) : Except String ReadFileArgs :=
  match v with
  | .vobj pairs => do
    let path ← zodStringMin1 pairs "path"
    let maxBytes ← zodPosIntMax pairs "maxBytes" 500000
    .ok ⟨path, maxBytes⟩
  | _ => .error "SchemaError: expected object"

def parseWriteFileArgs (v : Value) : Except String WriteFileArgs :=
  match v with
  | .vobj pairs => do
    let path ← zodStringMin1 pairs "path"
    let content ← zodString pairs "content"
    let mode ← zodModeEnum pairs "mode"
    .ok ⟨path, content, mode⟩
  | _ => .error "SchemaError: expected object"

def parsePatchFileArgs (v : Value) : Except String PatchFileArgs :=
  match v with
  | .vobj pairs => do
    let path ← zodStringMin1 pairs "path"
    let patch ← zodStringMin1 pairs "patch"
    .ok ⟨path, patch⟩
  | _ => .error "SchemaError: expected object"

/-- tools.ts `READ_FILE.run`: resolve, read, enforce the
`maxBytes ?? policy.maxFileBytes` size cap (`byteLength` is the UTF-8 byte
size).  An absent path is ENOENT and maps to the `File not found` message;
directory/permission errors are not modelled (the FS model has only files). -/
def READ_FILE_run (projectRoot : String) (policy : Policy) (fs : FS) (args : ReadFileArgs) :
    FS × Except String Value :=
  match safeResolve projectRoot args.path with
  | .error e => (fs, .error e)
  | .ok p =>
    match fsGet fs p with
    | none =>
      (fs, .error ("File not found: " ++ args.path ++
        "\nSuggestion: Use SEARCH to verify the file exists, or use WRITE_FILE to create it."))
    | some content =>
      let max := args.maxBytes.getD policy.maxFileBytes
      if (content.utf8ByteSize : Int) > max then
        (fs, .error ("File too large: " ++ toString content.utf8ByteSize ++ " > " ++ toString max))
      else (fs, .ok (.vstr content))

/-- tools.ts `WRITE_FILE.run`: resolve, honour `create_only` (existing target
is an error; the ENOENT from probing an absent target is swallowed), create
parent directories, write.  `content.length` in the result message is the JS
UTF-16 length, which coincides with the character count for the embedded
contents. -/
def WRITE_FILE_run (projectRoot : String) (fs : FS) (args : WriteFileArgs) :
    FS × Except String Value :=
  match safeResolve projectRoot args.path with
  | .error e => (fs, .error e)
  | .ok p =>
    if args.mode = some "create_only" ∧ (fsGet fs p).isSome then
      (fs, .error ("File already exists: " ++ args.path ++
        "\nSuggestion: Use mode \"overwrite\" to replace it, or use READ_FILE to check its contents first."))
    else
      (fsSet fs p args.content,
       .ok (.vstr ("WROTE " ++ args.path ++ " (" ++ toString args.content.length ++ " chars)")))

/-- tools.ts `PATCH_FILE.run`: resolve, read the existing file (absent target
is the `Cannot patch: file not found` error), and either replace the whole
contents when the patch starts with the literal `"REPLACE:\n"` marker or
refuse with an explicit error (the refusal is re-thrown unchanged by the
surrounding catch since it carries no `err.code`). -/
def PATCH_FILE_run (projectRoot : String) (fs : FS) (args : PatchFileArgs) :
    FS × Except String Value :=
  match safeResolve projectRoot args.path with
  | .error e => (fs, .error e)
  | .ok p =>
    match fsGet fs p with
    | none =>
      (fs, .error ("Cannot patch: file not found: " ++ args.path ++
        "\nSuggestion: Use WRITE_FILE to create the file first, or verify the path with SEARCH."))
    | some _before =>
      if strStartsWith args.patch "REPLACE:\n" then
        (fsSet fs p (strDrop args.patch ("REPLACE:\n".length)),
         .ok (.vstr ("PATCHED " ++ args.path ++ " (replaced)")))
      else
        (fs, .error "PATCH_FILE: unsupported patch format. Use 'REPLACE:\\n<content>' in v0.")

/-! ## Tokenizer (dsl/tokenizer.ts)

A faithful embedding of `tokenize`: lines (with `\r\n` normalized), comment
stripping from the first `#`, blank-line skipping, space-only indentation with
an INDENT/DEDENT stack, the fixed keyword set, the two recognized two-char
symbols `==` and `!=`, the single-char symbol set `(){}[],:=+.`, double-quoted
strings with `\n`/`\"`/`\\` escapes (an unknown escape keeps the next
character), and decimal integer literals.  The per-line scanner takes fuel
(always supplied as more than the line length, so exhaustion is unreachable). -/

inductive Tok where
  | IDENT (v : String)
  | NUM (v : Int)
  | STR (v : String)
  | KW (v : String)
  | SYM (v : String)
  | NEWLINE
  | INDENT
  | DEDENT
  | EOF
deriving Repr, DecidableEq

def KEYWORDS : List String :=
  ["def", "if", "else", "while", "return", "break", "true", "false", "null",
   "and", "or", "in", "not"]

def isAlphaChar (c : Char) : Bool := c.isAlpha || c = '_'

def isAlnumChar (c : Char) : Bool := c.isAlphanum || c = '_'

def singleSyms : List Char := ['(', ')', '{', '}', '[', ']', ',', ':', '=', '+', '.']

/-- Scan the remainder of a double-quoted string literal (opening quote already
consumed), returning the decoded contents and the characters after the closing
quote. -/
def scanStr (ln : Nat) : List Char → Except String (String × List Char)
  | [] => .error ("Unterminated string (line " ++ toString ln ++ ")")
  | '"' :: rest => .ok ("", rest)
  | '\\' :: [] => .error ("Unterminated string (line " ++ toString ln ++ ")")
  | '\\' :: nx :: rest =>
    let ch := if nx = 'n' then '\n' else nx
    match scanStr ln rest with
    | .ok (s, rem) => .ok (String.singleton ch ++ s, rem)
    | .error e => .error e
  | c :: rest =>
    match scanStr ln rest with
    | .ok (s, rem) => .ok (String.singleton c ++ s, rem)
    | .error e => .error e

/-- Longest prefix satisfying `p` together with the remainder. -/
def scanWhile (p : Char → Bool) : List Char → List Char × List Char
  | [] => ([], [])
  | c :: rest =>
    if p c then
      let (a, b) := scanWhile p rest
      (c :: a, b)
    else ([], c :: rest)

/-- The per-line token scanner (tokenizer.ts main `while (i < line.length)`
loop), in source order: whitespace skip, two-char symbols, single-char
symbols, string, number, identifier/keyword, else `Unexpected char`. -/
def tokBody (ln : Nat) : Nat → List Char → Except String (List Tok)
  | 0, _ => .error "TokenizerFuel"
  | fuel + 1, cs =>
    match cs with
    | [] => .ok []
    | c :: rest =>
      if c = ' ' ∨ c = '\t' then tokBody ln fuel rest
      else if c = '=' ∧ rest.head? = some '=' then
        (tokBody ln fuel (rest.drop 1)).map (fun ts => Tok.SYM "==" :: ts)
      else if c = '!' ∧ rest.head? = some '=' then
        (tokBody ln fuel (rest.drop 1)).map (fun ts => Tok.SYM "!=" :: ts)
      else if singleSyms.contains c then
        (tokBody ln fuel rest).map (fun ts => Tok.SYM (String.singleton c) :: ts)
      else if c = '"' then
        match scanStr ln rest with
        | .error e => .error e
        | .ok (s, rem) => (tokBody ln fuel rem).map (fun ts => Tok.STR s :: ts)
      else if c.isDigit then
        let (ds, rem) := scanWhile Char.isDigit rest
        (tokBody ln fuel rem).map (fun ts => Tok.NUM (digitsToNat (String.mk (c :: ds)) : Int) :: ts)
      else if isAlphaChar c then
        let (ds, rem) := scanWhile isAlnumChar rest
        let word := String.mk (c :: ds)
        let tok := if KEYWORDS.contains word then Tok.KW word else Tok.IDENT word
        (tokBody ln fuel rem).map (fun ts => tok :: ts)
      else .error ("Unexpected char '" ++ String.singleton c ++ "' (line " ++ toString ln ++ ")")

/-- `raw.replace(/#.*$/, "")`: drop everything from the first `#`. -/
def stripComment (line : String) : String := (splitOnChar '#' line).headD line

def countLeadingSpaces : List Char → Nat
  | ' ' :: rest => countLeadingSpaces rest + 1
  | _ => 0

/-- `while (indents.length > 1 && indent < top) { pop; DEDENT }` — the indent
stack is kept head-is-top. -/
def popDedents (indent : Nat) : List Nat → List Nat × List Tok
  | top :: next :: rest =>
    if indent < top then
      let (st, ts) := popDedents indent (next :: rest)
      (st, Tok.DEDENT :: ts)
    else (top :: next :: rest, [])
  | st => (st, [])

/-- At EOF: close every open indent with a DEDENT and emit EOF. -/
def closeDedents : List Nat → List Tok
  | _ :: next :: rest => Tok.DEDENT :: closeDedents (next :: rest)
  | _ => [Tok.EOF]

def tokLines (ln : Nat) : List String → List Nat → Except String (List Tok)
  | [], indents => .ok (closeDedents indents)
  | raw :: rest, indents =>
    let line := stripComment raw
    if (trimChars line.data).isEmpty then tokLines (ln + 1) rest indents
    else
      let cs := line.data
      let indent := countLeadingSpaces cs
      if cs.contains '\t' then .error ("Tabs not allowed (line " ++ toString ln ++ ")")
      else
        let top := indents.headD 0
        let handled : Except String (List Nat × List Tok) :=
          if indent > top then .ok (indent :: indents, [Tok.INDENT])
          else if indent < top then
            let (indents', ds) := popDedents indent indents
            if indent ≠ indents'.headD 0 then
              .error ("Indentation error (line " ++ toString ln ++ ")")
            else .ok (indents', ds)
          else .ok (indents, [])
        match handled with
        | .error e => .error e
        | .ok (indents', pre) =>
          match tokBody ln (cs.length + 1) (cs.drop indent) with
          | .error e => .error e
          | .ok body =>
            match tokLines (ln + 1) rest indents' with
            | .error e => .error e
            | .ok tail => .ok (pre ++ body ++ [Tok.NEWLINE] ++ tail)

/-- tokenizer.ts `tokenize(src)`. -/
def tokenize (src : String) : Except String (List Tok) :=
  tokLines 1 (splitOnChar '\n' ⟨normalizeCRLF src.data⟩) [0]

/-! ## Loop detector (runtime/loop-detector.ts) -/

/-- One entry of the sliding window.  The source also stores a wall-clock
`timestamp`, which no detection rule reads; it is dropped. -/
structure Fingerprint where
  action : String
  argsHash : String
  success : Bool
deriving Repr, DecidableEq

/-- Detector configuration.  `similarityThreshold` (a float the detection code
never reads) is omitted. -/
structure LoopDetectorConfig where
  windowSize : Nat
  maxRepeats : Nat
  maxConsecutiveFailures : Nat
deriving Repr

def LOOP_DEFAULT_CONFIG : LoopDetectorConfig :=
  { windowSize := 20, maxRepeats := 4, maxConsecutiveFailures := 5 }

structure LoopState where
  recentActions : List Fingerprint
  consecutiveFailures : Nat
  loopDetected : Bool
  loopType : Option String
  suggestion : Option String
deriving Repr

def LoopState.initial : LoopState :=
  { recentActions := [], consecutiveFailures := 0, loopDetected := false,
    loopType := none, suggestion := none }

/-- `detectExactRepeat`: count, from the newest entry backwards, consecutive
fingerprints with the same action and args hash; flag at `maxRepeats`. -/
def detectExactRepeat (cfg : LoopDetectorConfig) (actions : List Fingerprint) :
    Option (String × Nat) :=
  match actions.getLast? with
  | none => none
  | some last =>
    let count := (actions.reverse.takeWhile
      (fun a => a.action == last.action && a.argsHash == last.argsHash)).length
    if count ≥ cfg.maxRepeats then some (last.action, count) else none

/-- JS `slice(-n)`. -/
def listTakeRight {α : Type} (n : Nat) (l : List α) : List α := l.drop (l.length - n)

/-- The inner `for (i = len - patternLen*3; i >= 0; i -= patternLen)` counting
loop of `detectCycle`.  The fuel is supplied as more iterations than the list
is long, so exhaustion is unreachable (`patternLen ≥ 2`). -/
def priorRepeats (acts pat : List String) (pl : Nat) : Int → Nat → Nat
  | _, 0 => 0
  | i, fuel + 1 =>
    if i < 0 then 0
    else if (acts.drop i.toNat).take pl = pat then 1 + priorRepeats acts pat pl (i - pl) fuel
    else 0

/-- One probe of `detectCycle` at a fixed pattern length: the last `pl`
actions must equal the preceding `pl`, and the pattern must repeat at least 3
times contiguously. -/
def detectCycleAt (acts : List Fingerprint) (pl : Nat) : Option (List String × Nat) :=
  if acts.length < pl * 2 then none
  else
    let pattern := (listTakeRight pl acts).map (fun a => a.action)
    let prev := ((listTakeRight (pl * 2) acts).take pl).map (fun a => a.action)
    if pattern = prev then
      let repeats := 2 + priorRepeats (acts.map (fun a => a.action)) pattern pl
        ((acts.length : Int) - (pl : Int) * 3) (acts.length + 1)
      if repeats ≥ 3 then some (pattern, pl) else none
    else none

/-- `detectCycle`: pattern lengths 2, 3, 4 in order, first hit wins. -/
def detectCycle (acts : List Fingerprint) : Option (List String × Nat) :=
  if acts.length < 4 then none
  else
    match detectCycleAt acts 2 with
    | some r => some r
    | none =>
      match detectCycleAt acts 3 with
      | some r => some r
      | none => detectCycleAt acts 4

/-- `detectOscillation`: the last 6 actions follow a strict A-B-A-B-A-B
pattern with A ≠ B (and, per the JS truthiness guard `a1 && b1`, neither
action is the empty string). -/
def detectOscillation (acts : List Fingerprint) : Option (String × String) :=
  if acts.length < 6 then none
  else
    match listTakeRight 6 acts with
    | [x0, x1, x2, x3, x4, x5] =>
      if x0.action ≠ "" ∧ x1.action ≠ "" ∧ x0.action = x2.action ∧ x2.action = x4.action ∧
          x1.action = x3.action ∧ x3.action = x5.action ∧ x0.action ≠ x1.action then
        some (x0.action, x1.action)
      else none
    | _ => none

/-- `detect()`: reset the flags, then check exact repeat, action cycle,
failure streak and oscillation in that order; the first match sets the kind
and suggestion and returns. -/
def detect (cfg : LoopDetectorConfig) (st : LoopState) : LoopState :=
  let st := { st with
                loopDetected := false
                loopType := (none : Option String)
                suggestion := (none : Option String) }
  let actions := st.recentActions
  if actions.length < 3 then st
  else
    match detectExactRepeat cfg actions with
    | some (action, count) =>
      { st with
          loopDetected := true
          loopType := some "exact_repeat"
          suggestion := some ("Action \"" ++ action ++ "\" repeated " ++ toString count ++
            " times. Consider a different approach or asking for clarification.") }
    | none =>
      match detectCycle actions with
      | some (pattern, _len) =>
        { st with
            loopDetected := true
            loopType := some "action_cycle"
            suggestion := some ("Detected cycle: " ++ strJoin " -> " pattern ++
              ". The agent may be oscillating between strategies.") }
      | none =>
        if st.consecutiveFailures ≥ cfg.maxConsecutiveFailures then
          { st with
              loopDetected := true
              loopType := some "failure_loop"
              suggestion := some (toString st.consecutiveFailures ++
                " consecutive failures. Consider stopping and reviewing the approach.") }
        else
          match detectOscillation actions with
          | some (a, b) =>
            { st with
                loopDetected := true
                loopType := some "oscillation"
                suggestion := some ("Oscillating between \"" ++ a ++ "\" and \"" ++ b ++
                  "\". Agent may be stuck in decision conflict.") }
          | none => st

/-- loop-detector.ts `record(plan, success)`.  The source computes
`argsHash = hashArgs(plan.args)` — a JSON-canonicalizing 32-bit string hash —
and pushes `{action, argsHash, timestamp, success}` before trimming the window
and running `detect`.  The embedding takes the action and hash strings
directly: the detection rules compare hashes only for equality, so the hash
function itself is irrelevant to them. -/
def record (cfg : LoopDetectorConfig) (st : LoopState) (action argsHash : String)
    (success : Bool) : LoopState :=
  let ra := st.recentActions ++ [⟨action, argsHash, success⟩]
  let ra := if ra.length > cfg.windowSize then ra.drop 1 else ra
  let cf := if success then 0 else st.consecutiveFailures + 1
  detect cfg { st with recentActions := ra, consecutiveFailures := cf }

/-- Record a sequence of (action, argsHash, success) fingerprints in order. -/
def recordMany (cfg : LoopDetectorConfig) : LoopState → List (String × String × Bool) → LoopState
  | st, [] => st
  | st, (a, h, s) :: rest => recordMany cfg (record cfg st a h s) rest

/-! ## Interpreter (dsl/vm.ts)

The AST mirrors the statements and expressions the current parser
(`dsl/parser.ts`) produces and `VM.run` executes, restricted to the forms the
verified claims exercise: `class`, attribute/index assignment, method calls,
`retry` and `timeout` (wall-clock racing) are omitted.  Built-in calls are
embedded for `log`, `len` and `apply`; the LLM-backed builtins (`llm`,
`plan`, `do`, `run_agent`, …) and `parallel`/`tool`/`range` are mapped to a
distinguished `BuiltinNotModelled` error that no embedded program triggers. -/

inductive Expr where
  | num (value : Int)
  | str (value : String)
  | bool (value : Bool)
  | null
  | var (name : String)
  | obj (pairs : List (String × Expr))
  | arr (items : List Expr)
  | member (object : Expr) (property : String)
  | index (object : Expr) (idx : Expr)
  | binary (op : String) (left right : Expr)
  | unary (op : String) (e : Expr)
  | call (name : String) (args : List Expr)
deriving Repr

inductive Stmt where
  | defStmt (name : String) (params : List String) (body : List Stmt)
  | assign (name : String) (value : Expr)
  | exprStmt (e : Expr)
  | ret (value : Option Expr)
  | brk
  | ifStmt (cond : Expr) (thenB : List Stmt) (elseB : Option (List Stmt))
  | whileStmt (cond : Expr) (body : List Stmt)
  | forStmt (v : String) (iter : Expr) (body : List Stmt)
  | withPolicy (policy : Expr) (body : List Stmt)
  | guard (e : Expr)
deriving Repr

/-- The node-type name recorded in `stmt` events (`step(s.type)`). -/
def stmtTypeName : Stmt → String
  | .defStmt .. => "Def"
  | .assign .. => "Assign"
  | .exprStmt .. => "ExprStmt"
  | .ret .. => "Return"
  | .brk => "Break"
  | .ifStmt .. => "If"
  | .whileStmt .. => "While"
  | .forStmt .. => "For"
  | .withPolicy .. => "WithPolicy"
  | .guard .. => "Guard"

abbrev Env := List (String × Value)

structure FuncDef where
  params : List String
  body : List Stmt
deriving Repr

/-- Logged events.  Wall-clock timestamps and the structured input/output
payloads of `tool`/`llm` events are dropped; `llm`, `loop_warning` and
`budget_update` events never arise in the embedded subset (no LLM builtins). -/
inductive Event where
  | stmt (step : Nat) (detail : String)
  | tool (step : Nat) (name : String)
  | error (step : Nat) (msg : String)
deriving Repr, DecidableEq

def isStmtEvent : Event → Bool
  | .stmt .. => true
  | _ => false

/-- Number of `stmt` events in a trace. -/
def countStmt (events : List Event) : Nat := events.countP isStmtEvent

/-- vm.ts `VMConfig`.  `loopWarningCallback` is omitted; `haltOnLoop` is kept
but only read by the (unmodelled) LLM path. -/
structure VMConfig where
  maxSteps : Nat
  maxTimeMs : Nat
  maxToolCalls : Nat
  maxLLMCalls : Nat
  haltOnLoop : Bool
deriving Repr

def DEFAULT_VM_CONFIG : VMConfig :=
  { maxSteps := 50000, maxTimeMs := 600000, maxToolCalls := 2000, maxLLMCalls := 500,
    haltOnLoop := false }

/-- logger.ts `BudgetConfig`.  `maxCostUsd` (floating point) is omitted along
with the cost estimate it bounds; no embedded program records LLM usage, so
the estimate is identically zero. -/
structure BudgetConfig where
  maxSteps : Nat
  maxTimeMs : Nat
  maxToolCalls : Nat
  maxLLMCalls : Nat
  maxTokens : Nat
deriving Repr

def DEFAULT_BUDGET : BudgetConfig :=
  { maxSteps := 50000, maxTimeMs := 600000, maxToolCalls := 2000, maxLLMCalls := 500,
    maxTokens := 1000000 }

/-- The interpreter state: the VM's local counters (`steps`, `llmCalls`), the
logger's budget-tracker counters, the event trace, the mutable policy of the
shared tool context, the function table (`this.funcs`) and the file system. -/
structure St where
  steps : Nat
  llmCalls : Nat
  trackerSteps : Nat
  trackerToolCalls : Nat
  trackerLLMCalls : Nat
  trackerTokens : Nat
  events : List Event
  policy : Policy
  funcs : List (String × FuncDef)
  projectRoot : String
  fs : FS

/-- Thrown signals: JS `Error` (with its message), the `ReturnSignal` /
`BreakSignal` control-flow classes, and fuel exhaustion (a model artifact no
theorem exercises). -/
inductive Sig where
  | err (msg : String)
  | ret (v : Value)
  | brk
  | fuelOut

/-- logger.ts `BudgetTracker.checkBudget()`, with elapsed wall-clock time
taken as 0 (time is not modelled). -/
def checkBudget (cfgT : BudgetConfig) (st : St) : Option String :=
  let elapsed : Nat := 0
  if st.trackerSteps > cfgT.maxSteps then
    some ("maxSteps exceeded: " ++ toString st.trackerSteps ++ "/" ++ toString cfgT.maxSteps)
  else if elapsed > cfgT.maxTimeMs then
    some ("maxTimeMs exceeded: " ++ toString elapsed ++ "ms/" ++ toString cfgT.maxTimeMs ++ "ms")
  else if st.trackerToolCalls > cfgT.maxToolCalls then
    some ("maxToolCalls exceeded: " ++ toString st.trackerToolCalls ++ "/" ++
      toString cfgT.maxToolCalls)
  else if st.trackerLLMCalls > cfgT.maxLLMCalls then
    some ("maxLLMCalls exceeded: " ++ toString st.trackerLLMCalls ++ "/" ++
      toString cfgT.maxLLMCalls)
  else if st.trackerTokens > cfgT.maxTokens then
    some ("maxTokens exceeded: " ++ toString st.trackerTokens ++ "/" ++ toString cfgT.maxTokens)
  else none

/-- vm.ts `checkBudgets`: the logger-level check first, then the VM-level
limits (elapsed time again taken as 0). -/
def checkBudgets (cfg : VMConfig) (cfgT : BudgetConfig) (st : St) : Option String :=
  match checkBudget cfgT st with
  | some reason => some ("BudgetExceeded: " ++ reason)
  | none =>
    if st.steps > cfg.maxSteps then some "BudgetExceeded: maxSteps"
    else if (0 : Nat) > cfg.maxTimeMs then some "BudgetExceeded: maxTimeMs"
    else if st.llmCalls > cfg.maxLLMCalls then some "BudgetExceeded: maxLLMCalls"
    else none

/-- vm.ts `step(detail)`: increment the VM step counter and the tracker,
append the `stmt` event, then check budgets — the event is emitted before the
check can throw. -/
def stepTick (cfg : VMConfig) (cfgT : BudgetConfig) (detail : String) (st : St) :
    St × Option String :=
  let st := { st with
                steps := st.steps + 1
                trackerSteps := st.trackerSteps + 1 }
  let st := { st with events := st.events ++ [.stmt st.steps detail] }
  (st, checkBudgets cfg cfgT st)

/-- vm.ts `runToolAction(name, toolArgs)`: count the tool call, check the
active policy (JS `includes` uses `===` against the tool name), look the tool
up in the default registry, validate the args against its zod schema, run it,
and append the `tool` event on success.  `SEARCH`, `RECALL` and `RUN_CMD` are
registered but their effects (directory walk, memory stub, subprocess) are
outside the model; no embedded program dispatches them. -/
def runToolAction (name : String) (args : Value) (st : St) : St × Except Sig Value :=
  let st := { st with trackerToolCalls := st.trackerToolCalls + 1 }
  if !(st.policy.allowTools.any (fun v => jsStrictEq v (.vstr name))) then
    (st, .error (.err ("PolicyViolation: tool not allowed: " ++ name)))
  else
    let withEvent (out : FS × Except String Value) : St × Except Sig Value :=
      match out with
      | (fs', .ok v) =>
        ({ st with
             fs := fs'
             events := st.events ++ [.tool st.steps name] }, .ok v)
      | (fs', .error e) => ({ st with fs := fs' }, .error (.err e))
    match name with
    | "READ_FILE" =>
      match parseReadFileArgs args with
      | .error e => (st, .error (.err e))
      | .ok a => withEvent (READ_FILE_run st.projectRoot st.policy st.fs a)
    | "WRITE_FILE" =>
      match parseWriteFileArgs args with
      | .error e => (st, .error (.err e))
      | .ok a => withEvent (WRITE_FILE_run st.projectRoot st.fs a)
    | "PATCH_FILE" =>
      match parsePatchFileArgs args with
      | .error e => (st, .error (.err e))
      | .ok a => withEvent (PATCH_FILE_run st.projectRoot st.fs a)
    | "SEARCH" => (st, .error (.err "ToolNotModelled: SEARCH"))
    | "RECALL" => (st, .error (.err "ToolNotModelled: RECALL"))
    | "RUN_CMD" => (st, .error (.err "ToolNotModelled: RUN_CMD"))
    | _ => (st, .error (.err ("Unknown tool: " ++ name)))

/-- `with policy { … }` overlay: copy `allowActions` onto `allowTools`, then
`allowCommands`, `requireApproval`, `maxFileBytes`, each only when present
with the expected shape.  Arrays pass the JS `typeof === "object"` guard but
have none of the four properties, so they overlay nothing. -/
def overlayPolicy (P : Policy) (v : Value) : Policy :=
  match v with
  | .vobj pairs =>
    let P := match alistGet pairs "allowActions" with
      | some (.varr xs) => { P with allowTools := xs }
      | _ => P
    let P := match alistGet pairs "allowCommands" with
      | some (.varr xs) => { P with allowCommands := xs }
      | _ => P
    let P := match alistGet pairs "requireApproval" with
      | some (.vbool b) => { P with requireApproval := b }
      | _ => P
    match alistGet pairs "maxFileBytes" with
    | some (.vnum n) => { P with maxFileBytes := n }
    | _ => P
  | _ => P

/-- `!policyValue || typeof policyValue !== "object"` — the shapes that pass
the `with policy` object check (arrays and objects; `null` is falsy). -/
def jsIsObjectLike : Value → Bool
  | .varr _ => true
  | .vobj _ => true
  | _ => false

/-- JS `s.includes(t)` substring test. -/
def strIncludes (s t : String) : Bool := containsSub s.data t.data

/-- A string that is a canonical JS array index (`"0"`, `"12"`, …: digits with
no leading zero). -/
def canonicalIndex (s : String) : Option Nat :=
  if s = "0" then some 0
  else if s ≠ "" ∧ s.data.all Char.isDigit ∧ strStartsWith s "0" = false then
    some (digitsToNat s)
  else none

/-- JS property read `arr[s]` for a string key on an array: canonical element
indices return the element, `"length"` returns the length, anything else is
`undefined` (`?? null`).  `Array.prototype` method names (`"push"`, …), which
would return function objects, are not modelled; no embedded program uses
them. -/
def jsArrayGetStr (items : List Value) (s : String) : Value :=
  if s = "length" then .vnum items.length
  else
    match canonicalIndex s with
    | some n => (items.get? n).getD .vnull
    | none => .vnull

/-- JS element read `arr[n]` for an integer index (`?? null`). -/
def jsArrayGetNum (items : List Value) (n : Int) : Value :=
  (if n < 0 then none else items.get? n.toNat).getD .vnull

/-- `evalExpr` Binary case: both operands are already evaluated (no
short-circuiting in the source — `Boolean(l) && Boolean(r)` runs after both
sides were awaited). -/
def applyBinary (op : String) (l r : Value) : Except String Value :=
  match op with
  | "+" =>
    match l, r with
    | .vnum a, .vnum b => .ok (.vnum (a + b))
    | _, _ => .ok (.vstr (jsToString l ++ jsToString r))
  | "==" => .ok (.vbool (jsStrictEq l r))
  | "!=" => .ok (.vbool (!jsStrictEq l r))
  | ">" =>
    .ok (.vbool (match jsToNumber l, jsToNumber r with
      | some a, some b => decide (a > b)
      | _, _ => false))
  | "<" =>
    .ok (.vbool (match jsToNumber l, jsToNumber r with
      | some a, some b => decide (a < b)
      | _, _ => false))
  | ">=" =>
    .ok (.vbool (match jsToNumber l, jsToNumber r with
      | some a, some b => decide (a ≥ b)
      | _, _ => false))
  | "<=" =>
    .ok (.vbool (match jsToNumber l, jsToNumber r with
      | some a, some b => decide (a ≤ b)
      | _, _ => false))
  | "and" => .ok (.vbool (jsBool l && jsBool r))
  | "or" => .ok (.vbool (jsBool l || jsBool r))
  | "in" =>
    match r with
    | .vstr s => .ok (.vbool (strIncludes s (jsToString l)))
    | .varr items => .ok (.vbool (items.any (fun x => jsStrictEq x l)))
    | _ => .ok (.vbool false)
  | _ => .error ("Unknown op: " ++ op)

/-- Bind parameters positionally; missing arguments become `null`
(`callArgs[idx] ?? null`), extra arguments are dropped. -/
def zipParams : List String → List Value → Env
  | [], _ => []
  | p :: ps, [] => (p, .vnull) :: zipParams ps []
  | p :: ps, a :: rest => (p, a) :: zipParams ps rest

def unmodelledBuiltins : List String :=
  ["llm", "llm_user", "llm_user_cfg", "LLMClient", "apply_plan", "apply_plan_cfg",
   "plan", "do", "parallel", "run_agent", "decide", "judge", "summarize", "tool", "range"]

/-- The `Guard failed` detail: the source appends `JSON.stringify(s.expr)` (a
dump of the AST node); the embedding uses the Repr printer.  No theorem
inspects the text after the prefix. -/
def guardDetail (e : Expr) : String := reprStr e

mutual

/-- vm.ts `evalExpr(e, env)`. -/
def evalExpr (cfg : VMConfig) (cfgT : BudgetConfig) :
    Nat → Expr → Env → St → St × Except Sig Value
  | 0, _, _, st => (st, .error .fuelOut)
  | fuel + 1, e, env, st =>
    match e with
    | .num n => (st, .ok (.vnum n))
    | .str s => (st, .ok (.vstr s))
    | .bool b => (st, .ok (.vbool b))
    | .null => (st, .ok .vnull)
    | .var name =>
      -- `if (env.has(name)) return env.get(name); return null`
      (st, .ok ((alistGet env name).getD .vnull))
    | .obj pairs =>
      match evalPairs cfg cfgT fuel pairs env st with
      | (st₁, .ok out) => (st₁, .ok (.vobj out))
      | (st₁, .error sig) => (st₁, .error sig)
    | .arr items =>
      match evalList cfg cfgT fuel items env st with
      | (st₁, .ok out) => (st₁, .ok (.varr out))
      | (st₁, .error sig) => (st₁, .error sig)
    | .member objE property =>
      match evalExpr cfg cfgT fuel objE env st with
      | (st₁, .error sig) => (st₁, .error sig)
      | (st₁, .ok o) =>
        match o with
        | .vobj pairs => (st₁, .ok ((alistGet pairs property).getD .vnull))
        | _ => (st₁, .ok .vnull)
    | .index objE idxE =>
      match evalExpr cfg cfgT fuel objE env st with
      | (st₁, .error sig) => (st₁, .error sig)
      | (st₁, .ok o) =>
        match evalExpr cfg cfgT fuel idxE env st₁ with
        | (st₂, .error sig) => (st₂, .error sig)
        | (st₂, .ok i) =>
          match o, i with
          | .varr items, .vnum n => (st₂, .ok (jsArrayGetNum items n))
          | .vobj pairs, .vstr s => (st₂, .ok ((alistGet pairs s).getD .vnull))
          | .varr items, .vstr s => (st₂, .ok (jsArrayGetStr items s))
          | _, _ => (st₂, .ok .vnull)
    | .binary op lE rE =>
      match evalExpr cfg cfgT fuel lE env st with
      | (st₁, .error sig) => (st₁, .error sig)
      | (st₁, .ok l) =>
        match evalExpr cfg cfgT fuel rE env st₁ with
        | (st₂, .error sig) => (st₂, .error sig)
        | (st₂, .ok r) =>
          match applyBinary op l r with
          | .ok v => (st₂, .ok v)
          | .error msg => (st₂, .error (.err msg))
    | .unary op subE =>
      match evalExpr cfg cfgT fuel subE env st with
      | (st₁, .error sig) => (st₁, .error sig)
      | (st₁, .ok v) =>
        if op = "not" then (st₁, .ok (.vbool (!jsBool v)))
        else (st₁, .error (.err ("Unknown unary op: " ++ op)))
    | .call name argEs =>
      match evalList cfg cfgT fuel argEs env st with
      | (st₁, .error sig) => (st₁, .error sig)
      | (st₁, .ok callArgs) =>
        -- The `__ps_llm_client` callable check inspects `env.get(name)`;
        -- client marker objects are not representable in `Value`, so that
        -- branch never fires in the embedded subset.
        if name = "log" then (st₁, .ok .vnull)   -- console output is not modelled
        else if name = "len" then
          (st₁, .ok (match callArgs.headD .vnull with
            | .varr items => .vnum items.length
            | .vstr s => .vnum s.length
            | _ => .vnum 0))
        else if unmodelledBuiltins.contains name then
          (st₁, .error (.err ("BuiltinNotModelled: " ++ name)))
        else if name = "apply" then
          match callArgs.headD .vnull with
          | .vstr actionName => runToolAction actionName (callArgs.getD 1 (.vobj [])) st₁
          | _ => (st₁, .error (.err "BuiltinNotModelled: apply plan form"))
        else
          match alistGet st₁.funcs name with
          | none => (st₁, .error (.err ("Unknown function: " ++ name)))
          | some f =>
            -- fresh local scope binding only the parameters
            let lcl := zipParams f.params callArgs
            match execBlock cfg cfgT fuel f.body lcl st₁ with
            | (st₂, _, .ok ()) => (st₂, .ok .vnull)
            | (st₂, _, .error (.ret v)) => (st₂, .ok v)   -- ReturnSignal caught
            | (st₂, _, .error sig) => (st₂, .error sig)   -- everything else rethrown

/-- Evaluate call arguments / array items left to right. -/
def evalList (cfg : VMConfig) (cfgT : BudgetConfig) :
    Nat → List Expr → Env → St → St × Except Sig (List Value)
  | 0, _, _, st => (st, .error .fuelOut)
  | _ + 1, [], _, st => (st, .ok [])
  | fuel + 1, e :: rest, env, st =>
    match evalExpr cfg cfgT fuel e env st with
    | (st₁, .error sig) => (st₁, .error sig)
    | (st₁, .ok v) =>
      match evalList cfg cfgT fuel rest env st₁ with
      | (st₂, .ok vs) => (st₂, .ok (v :: vs))
      | (st₂, .error sig) => (st₂, .error sig)

/-- Evaluate object-literal pairs in order (`out[p.key] = …`, later keys
overwrite). -/
def evalPairs (cfg : VMConfig) (cfgT : BudgetConfig) :
    Nat → List (String × Expr) → Env → St → St × Except Sig (List (String × Value))
  | 0, _, _, st => (st, .error .fuelOut)
  | _ + 1, [], _, st => (st, .ok [])
  | fuel + 1, (k, e) :: rest, env, st =>
    match evalExpr cfg cfgT fuel e env st with
    | (st₁, .error sig) => (st₁, .error sig)
    | (st₁, .ok v) =>
      match evalPairs cfg cfgT fuel rest env st₁ with
      | (st₂, .ok out) => (st₂, .ok (alistSet out k v))
      | (st₂, .error sig) => (st₂, .error sig)

/-- vm.ts `execStmt(s, env)`: the statement tick first (step counter, `stmt`
event, budget check), then the statement itself. -/
def execStmt (cfg : VMConfig) (cfgT : BudgetConfig) :
    Nat → Stmt → Env → St → St × Env × Except Sig Unit
  | 0, _, env, st => (st, env, .error .fuelOut)
  | fuel + 1, s, env, st =>
    match stepTick cfg cfgT (stmtTypeName s) st with
    | (st₀, some msg) => (st₀, env, .error (.err msg))
    | (st₀, none) =>
      match s with
      | .defStmt name params body =>
        ({ st₀ with funcs := alistSet st₀.funcs name ⟨params, body⟩ }, env, .ok ())
      | .assign name value =>
        match evalExpr cfg cfgT fuel value env st₀ with
        | (st₁, .ok v) => (st₁, alistSet env name v, .ok ())
        | (st₁, .error sig) => (st₁, env, .error sig)
      | .exprStmt e =>
        match evalExpr cfg cfgT fuel e env st₀ with
        | (st₁, .ok _) => (st₁, env, .ok ())
        | (st₁, .error sig) => (st₁, env, .error sig)
      | .ret value =>
        match value with
        | none => (st₀, env, .error (.ret .vnull))
        | some e =>
          match evalExpr cfg cfgT fuel e env st₀ with
          | (st₁, .ok v) => (st₁, env, .error (.ret v))
          | (st₁, .error sig) => (st₁, env, .error sig)
      | .brk => (st₀, env, .error .brk)
      | .ifStmt cond thenB elseB =>
        match evalExpr cfg cfgT fuel cond env st₀ with
        | (st₁, .error sig) => (st₁, env, .error sig)
        | (st₁, .ok c) =>
          if jsBool c then execBlock cfg cfgT fuel thenB env st₁
          else
            match elseB with
            | some b => execBlock cfg cfgT fuel b env st₁
            | none => (st₁, env, .ok ())
      | .whileStmt cond body => execWhile cfg cfgT fuel cond body env st₀
      | .forStmt v iter body =>
        match evalExpr cfg cfgT fuel iter env st₀ with
        | (st₁, .error sig) => (st₁, env, .error sig)
        | (st₁, .ok itv) =>
          match itv with
          | .varr items => execFor cfg cfgT fuel v items body env st₁
          | _ =>
            (st₁, env, .error (.err ("For loop iterator must be an array, got " ++ jsTypeof itv)))
      | .withPolicy pe body =>
        match evalExpr cfg cfgT fuel pe env st₀ with
        | (st₁, .error sig) => (st₁, env, .error sig)
        | (st₁, .ok pv) =>
          if jsIsObjectLike pv = false then (st₁, env, .error (.err "Policy must be an object"))
          else
            -- save (`{...this.ctx.policy}`), overlay, run, restore in `finally`
            let saved := st₁.policy
            let st₂ := { st₁ with policy := overlayPolicy st₁.policy pv }
            match execBlock cfg cfgT fuel body env st₂ with
            | (st₃, env₃, r) => ({ st₃ with policy := saved }, env₃, r)
      | .guard e =>
        match evalExpr cfg cfgT fuel e env st₀ with
        | (st₁, .error sig) => (st₁, env, .error sig)
        | (st₁, .ok v) =>
          if jsBool v then (st₁, env, .ok ())
          else (st₁, env, .error (.err ("Guard failed: " ++ guardDetail e)))

/-- vm.ts `execBlock`: statements in order, sharing the environment. -/
def execBlock (cfg : VMConfig) (cfgT : BudgetConfig) :
    Nat → List Stmt → Env → St → St × Env × Except Sig Unit
  | 0, _, env, st => (st, env, .error .fuelOut)
  | _ + 1, [], env, st => (st, env, .ok ())
  | fuel + 1, s :: rest, env, st =>
    match execStmt cfg cfgT fuel s env st with
    | (st₁, env₁, .ok ()) => execBlock cfg cfgT fuel rest env₁ st₁
    | (st₁, env₁, .error sig) => (st₁, env₁, .error sig)

/-- The `While` case: re-evaluate the condition each iteration; a
`BreakSignal` from the body ends the loop, a `ReturnSignal` or error is
rethrown. -/
def execWhile (cfg : VMConfig) (cfgT : BudgetConfig) :
    Nat → Expr → List Stmt → Env → St → St × Env × Except Sig Unit
  | 0, _, _, env, st => (st, env, .error .fuelOut)
  | fuel + 1, cond, body, env, st =>
    match evalExpr cfg cfgT fuel cond env st with
    | (st₁, .error sig) => (st₁, env, .error sig)
    | (st₁, .ok c) =>
      if jsBool c = false then (st₁, env, .ok ())
      else
        match execBlock cfg cfgT fuel body env st₁ with
        | (st₂, env₂, .ok ()) => execWhile cfg cfgT fuel cond body env₂ st₂
        | (st₂, env₂, .error .brk) => (st₂, env₂, .ok ())
        | (st₂, env₂, .error sig) => (st₂, env₂, .error sig)

/-- The `For` case body loop (the iterable is already evaluated to an
array). -/
def execFor (cfg : VMConfig) (cfgT : BudgetConfig) :
    Nat → String → List Value → List Stmt → Env → St → St × Env × Except Sig Unit
  | 0, _, _, _, env, st => (st, env, .error .fuelOut)
  | _ + 1, _, [], _, env, st => (st, env, .ok ())
  | fuel + 1, v, item :: rest, body, env, st =>
    let env := alistSet env v item
    match execBlock cfg cfgT fuel body env st with
    | (st₁, env₁, .ok ()) => execFor cfg cfgT fuel v rest body env₁ st₁
    | (st₁, env₁, .error .brk) => (st₁, env₁, .ok ())
    | (st₁, env₁, .error sig) => (st₁, env₁, .error sig)

end

/-- The initial state of a run. -/
def initialSt (projectRoot : String) (policy : Policy) (fs : FS) : St :=
  { steps := 0, llmCalls := 0, trackerSteps := 0, trackerToolCalls := 0,
    trackerLLMCalls := 0, trackerTokens := 0, events := [], policy := policy,
    funcs := [], projectRoot := projectRoot, fs := fs }

/-- vm.ts `VM.run(program)`: execute the body against a fresh global
environment; on a thrown signal, append an `error` event carrying the JS
message (`String(e)` of a control-flow signal object is
`"[object Object]"`) and rethrow.  The final environment is returned for
observability (the source keeps it as a local). -/
def VM_run (cfg : VMConfig) (cfgT : BudgetConfig) (fuel : Nat) (projectRoot : String)
    (policy : Policy) (fs : FS) (program : List Stmt) : St × Env × Except Sig Unit :=
  match execBlock cfg cfgT fuel program [] (initialSt projectRoot policy fs) with
  | (st, env, .ok ()) => (st, env, .ok ())
  | (st, env, .error sig) =>
    let msg := match sig with
      | .err m => m
      | .ret _ => "[object Object]"
      | .brk => "[object Object]"
      | .fuelOut => "fuel exhausted"
    ({ st with events := st.events ++ [.error st.steps msg] }, env, .error sig)

/-- subworkflow.ts `SubworkflowExecutor.execute`, restricted to the child-run
step that claim C8 is about.  The source pre-binds `opts.args` with

```ts
if (options.args) {
  for (const [key, value] of Object.entries(options.args)) {
    (vm as any).globalEnv?.set(key, value);
  }
}
await vm.run(ast);
```

but class `VM` declares no `globalEnv` member — the run-time global
environment is a local constant inside `VM.run` — so `(vm as any).globalEnv`
is `undefined`, the optional-chained `.set` is skipped, and the child VM runs
with an empty global environment regardless of the supplied args. -/
def subworkflowChildRun (cfg : VMConfig) (cfgT : BudgetConfig) (fuel : Nat)
    (projectRoot : String) (policy : Policy) (fs : FS)
    (_args : List (String × Value)) (program : List Stmt) : St × Env × Except Sig Unit :=
  VM_run cfg cfgT fuel projectRoot policy fs program

/-! ## The step-budget invariant

Every statement tick appends exactly one `stmt` event and increments the step
counter, and the budget check runs immediately afterwards, so along any
execution the number of `stmt` events equals the step counter and the step
counter can pass `maxSteps` by at most one (the offending tick raises
`BudgetExceeded` right after emitting its event).  `StepsInv M st out errish`
captures this for one interpreter call from state `st`: `errish` is true when
the call ended in a thrown `Error` (the only outcome that can leave the
counter at `M + 1`). -/

def isErrSig : Sig → Bool
  | .err _ => true
  | _ => false

def isErrMsgE {α : Type} : Except Sig α → Bool
  | .error sig => isErrSig sig
  | .ok _ => false

def StepsInv (M : Nat) (st st' : St) (errish : Bool) : Prop :=
  st'.steps ≤ M + 1 ∧ (errish = false → st'.steps ≤ M) ∧
  countStmt st'.events + st.steps = countStmt st.events + st'.steps

theorem StepsInv.of_eq {M : Nat} {st st' : St} {b : Bool}
    (hsteps : st'.steps = st.steps) (hevents : countStmt st'.events = countStmt st.events)
    (h : st.steps ≤ M) : StepsInv M st st' b := by
  refine ⟨by omega, fun _ => by omega, by omega⟩

theorem StepsInv.refl {M : Nat} {st : St} {b : Bool} (h : st.steps ≤ M) : StepsInv M st st b :=
  StepsInv.of_eq rfl rfl h

theorem StepsInv.trans {M : Nat} {st st₁ st₂ : St} {b : Bool}
    (h1 : StepsInv M st st₁ false) (h2 : StepsInv M st₁ st₂ b) : StepsInv M st st₂ b := by
  obtain ⟨a1, s1, c1⟩ := h1
  obtain ⟨a2, s2, c2⟩ := h2
  exact ⟨a2, s2, by omega⟩

theorem StepsInv.weaken {M : Nat} {st st' : St} {b : Bool}
    (h : StepsInv M st st' false) : StepsInv M st st' b := by
  obtain ⟨a, s, c⟩ := h
  exact ⟨a, fun _ => s rfl, c⟩

/-- A state change that touches neither the step counter nor the events
preserves the invariant. -/
theorem StepsInv.congr {M : Nat} {st st₁ st₂ : St} {b : Bool}
    (hsteps : st₂.steps = st₁.steps) (hevents : st₂.events = st₁.events)
    (h : StepsInv M st st₁ b) : StepsInv M st st₂ b := by
  obtain ⟨a, s, c⟩ := h
  exact ⟨by omega, fun hb => by rw [hsteps]; exact s hb, by rw [hsteps, hevents]; omega⟩

theorem countStmt_append (a b : List Event) : countStmt (a ++ b) = countStmt a + countStmt b :=
  List.countP_append ..

theorem countStmt_stmt (n : Nat) (d : String) : countStmt [Event.stmt n d] = 1 := rfl

theorem countStmt_tool (n : Nat) (d : String) : countStmt [Event.tool n d] = 0 := rfl

theorem countStmt_error (n : Nat) (d : String) : countStmt [Event.error n d] = 0 := rfl

theorem stepTick_spec (cfg : VMConfig) (cfgT : BudgetConfig) (d : String) (st : St) :
    (stepTick cfg cfgT d st).1.steps = st.steps + 1
  ∧ countStmt (stepTick cfg cfgT d st).1.events = countStmt st.events + 1
  ∧ (stepTick cfg cfgT d st).1.policy = st.policy
  ∧ ((stepTick cfg cfgT d st).2 = none → (stepTick cfg cfgT d st).1.steps ≤ cfg.maxSteps) := by
  refine ⟨rfl, ?_, rfl, ?_⟩
  · show countStmt (st.events ++ [Event.stmt (st.steps + 1) d]) = countStmt st.events + 1
    rw [countStmt_append, countStmt_stmt]
  · intro hnone
    simp only [stepTick, checkBudgets] at hnone ⊢
    split at hnone
    · exact absurd hnone (by simp)
    · split at hnone
      · exact absurd hnone (by simp)
      · next hgt => omega

/-- `runToolAction` never steps: the step counter is untouched and only a
(non-`stmt`) `tool` event may be appended. -/
theorem runToolAction_stepsInv {M : Nat} (name : String) (args : Value) (st : St)
    (h : st.steps ≤ M) {b : Bool} :
    StepsInv M st (runToolAction name args st).1 b := by
  simp only [runToolAction]
  repeat' split
  all_goals refine StepsInv.of_eq rfl ?_ h
  all_goals simp [countStmt_append, countStmt_tool, countStmt, isStmtEvent]

theorem StepsInv.strong {M : Nat} {st st' : St} (h : StepsInv M st st' false) :
    st'.steps ≤ M := h.2.1 rfl

/-- The state right after a statement tick whose budget check threw. -/
theorem StepsInv.tick {M : Nat} {st st₀ : St} (h1 : st₀.steps = st.steps + 1)
    (h2 : countStmt st₀.events = countStmt st.events + 1) (h : st.steps ≤ M) :
    StepsInv M st st₀ true := by
  refine ⟨by omega, ?_, by omega⟩
  intro hb
  exact Bool.noConfusion hb

/-- The state right after a statement tick whose budget check passed. -/
theorem StepsInv.tickOk {M : Nat} {st st₀ : St} {b : Bool} (h1 : st₀.steps = st.steps + 1)
    (h2 : countStmt st₀.events = countStmt st.events + 1) (h0 : st₀.steps ≤ M) :
    StepsInv M st st₀ b :=
  ⟨by omega, fun _ => h0, by omega⟩

/-- The central accounting invariant of the interpreter, for every component
of the mutual recursion at every fuel: starting from a state whose step
counter has not passed `maxSteps`, the counter ends at most one past
`maxSteps`, it passes `maxSteps` only when the call ends in a thrown `Error`,
and the number of `stmt` events grows by exactly the number of ticks. -/
theorem interpStepsInv (cfg : VMConfig) (cfgT : BudgetConfig) : ∀ fuel : Nat,
    (∀ e env st, st.steps ≤ cfg.maxSteps →
      StepsInv cfg.maxSteps st (evalExpr cfg cfgT fuel e env st).1
        (isErrMsgE (evalExpr cfg cfgT fuel e env st).2))
  ∧ (∀ es env st, st.steps ≤ cfg.maxSteps →
      StepsInv cfg.maxSteps st (evalList cfg cfgT fuel es env st).1
        (isErrMsgE (evalList cfg cfgT fuel es env st).2))
  ∧ (∀ ps env st, st.steps ≤ cfg.maxSteps →
      StepsInv cfg.maxSteps st (evalPairs cfg cfgT fuel ps env st).1
        (isErrMsgE (evalPairs cfg cfgT fuel ps env st).2))
  ∧ (∀ s env st, st.steps ≤ cfg.maxSteps →
      StepsInv cfg.maxSteps st (execStmt cfg cfgT fuel s env st).1
        (isErrMsgE (execStmt cfg cfgT fuel s env st).2.2))
  ∧ (∀ ss env st, st.steps ≤ cfg.maxSteps →
      StepsInv cfg.maxSteps st (execBlock cfg cfgT fuel ss env st).1
        (isErrMsgE (execBlock cfg cfgT fuel ss env st).2.2))
  ∧ (∀ c body env st, st.steps ≤ cfg.maxSteps →
      StepsInv cfg.maxSteps st (execWhile cfg cfgT fuel c body env st).1
        (isErrMsgE (execWhile cfg cfgT fuel c body env st).2.2))
  ∧ (∀ v items body env st, st.steps ≤ cfg.maxSteps →
      StepsInv cfg.maxSteps st (execFor cfg cfgT fuel v items body env st).1
        (isErrMsgE (execFor cfg cfgT fuel v items body env st).2.2)) := by
  intro fuel
  induction fuel with
  | zero =>
    exact ⟨fun _ _ _ h => StepsInv.refl h, fun _ _ _ h => StepsInv.refl h,
      fun _ _ _ h => StepsInv.refl h, fun _ _ _ h => StepsInv.refl h,
      fun _ _ _ h => StepsInv.refl h, fun _ _ _ _ h => StepsInv.refl h,
      fun _ _ _ _ _ h => StepsInv.refl h⟩
  | succ fuel ih =>
    obtain ⟨ihE, ihL, ihP, ihS, ihB, ihW, ihF⟩ := ih
    refine ⟨?_, ?_, ?_, ?_, ?_, ?_, ?_⟩
    · -- evalExpr
      intro e env st h
      cases e with
      | num n => exact StepsInv.refl h
      | str s => exact StepsInv.refl h
      | bool b => exact StepsInv.refl h
      | null => exact StepsInv.refl h
      | var name => exact StepsInv.refl h
      | obj pairs =>
        simp only [evalExpr]
        rcases hv : evalPairs cfg cfgT fuel pairs env st with ⟨st₁, r⟩
        have hP := ihP pairs env st h; rw [hv] at hP
        cases r <;> exact hP
      | arr items =>
        simp only [evalExpr]
        rcases hv : evalList cfg cfgT fuel items env st with ⟨st₁, r⟩
        have hL := ihL items env st h; rw [hv] at hL
        cases r <;> exact hL
      | member objE property =>
        simp only [evalExpr]
        rcases hv : evalExpr cfg cfgT fuel objE env st with ⟨st₁, r⟩
        have hE := ihE objE env st h; rw [hv] at hE
        cases r with
        | error sig => exact hE
        | ok o => cases o <;> exact hE
      | index objE idxE =>
        simp only [evalExpr]
        rcases hv : evalExpr cfg cfgT fuel objE env st with ⟨st₁, r₁⟩
        have hE1 := ihE objE env st h; rw [hv] at hE1
        cases r₁ with
        | error sig => exact hE1
        | ok o =>
          dsimp only
          rcases hw : evalExpr cfg cfgT fuel idxE env st₁ with ⟨st₂, r₂⟩
          have hE2 := ihE idxE env st₁ hE1.strong; rw [hw] at hE2
          cases r₂ with
          | error sig => exact hE1.trans hE2
          | ok i => cases o <;> cases i <;> exact hE1.trans hE2
      | binary op lE rE =>
        simp only [evalExpr]
        rcases hv : evalExpr cfg cfgT fuel lE env st with ⟨st₁, r₁⟩
        have hE1 := ihE lE env st h; rw [hv] at hE1
        cases r₁ with
        | error sig => exact hE1
        | ok l =>
          dsimp only
          rcases hw : evalExpr cfg cfgT fuel rE env st₁ with ⟨st₂, r₂⟩
          have hE2 := ihE rE env st₁ hE1.strong; rw [hw] at hE2
          cases r₂ with
          | error sig => exact hE1.trans hE2
          | ok r =>
            dsimp only
            cases happ : applyBinary op l r with
            | ok v => exact hE1.trans hE2
            | error msg => exact hE1.trans hE2.weaken
      | unary op subE =>
        simp only [evalExpr]
        rcases hv : evalExpr cfg cfgT fuel subE env st with ⟨st₁, r⟩
        have hE := ihE subE env st h; rw [hv] at hE
        cases r with
        | error sig => exact hE
        | ok v =>
          dsimp only
          split
          · exact hE
          · exact hE.weaken
      | call name argEs =>
        simp only [evalExpr]
        rcases hv : evalList cfg cfgT fuel argEs env st with ⟨st₁, r⟩
        have hL := ihL argEs env st h; rw [hv] at hL
        cases r with
        | error sig => exact hL
        | ok callArgs =>
          dsimp only
          split
          · exact hL
          split
          · exact hL
          split
          · exact hL.weaken
          split
          · -- the `apply` builtin
            split
            · exact hL.trans (runToolAction_stepsInv _ _ _ hL.strong)
            · exact hL.weaken
          · -- user-defined functions
            split
            · exact hL.weaken
            · next f _ =>
              rcases hb : execBlock cfg cfgT fuel f.body (zipParams f.params callArgs) st₁
                with ⟨st₂, env₂, rb⟩
              have hB := ihB f.body (zipParams f.params callArgs) st₁ hL.strong
              rw [hb] at hB
              cases rb with
              | ok u => cases u; exact hL.trans hB
              | error sig => cases sig <;> exact hL.trans hB
    · -- evalList
      intro es env st h
      cases es with
      | nil => exact StepsInv.refl h
      | cons e rest =>
        simp only [evalList]
        rcases hv : evalExpr cfg cfgT fuel e env st with ⟨st₁, r₁⟩
        have hE := ihE e env st h; rw [hv] at hE
        cases r₁ with
        | error sig => exact hE
        | ok v =>
          dsimp only
          rcases hw : evalList cfg cfgT fuel rest env st₁ with ⟨st₂, r₂⟩
          have hL := ihL rest env st₁ hE.strong; rw [hw] at hL
          cases r₂ <;> exact hE.trans hL
    · -- evalPairs
      intro ps env st h
      cases ps with
      | nil => exact StepsInv.refl h
      | cons p rest =>
        obtain ⟨k, e⟩ := p
        simp only [evalPairs]
        rcases hv : evalExpr cfg cfgT fuel e env st with ⟨st₁, r₁⟩
        have hE := ihE e env st h; rw [hv] at hE
        cases r₁ with
        | error sig => exact hE
        | ok v =>
          dsimp only
          rcases hw : evalPairs cfg cfgT fuel rest env st₁ with ⟨st₂, r₂⟩
          have hP := ihP rest env st₁ hE.strong; rw [hw] at hP
          cases r₂ <;> exact hE.trans hP
    · -- execStmt
      intro s env st h
      have hspec := stepTick_spec cfg cfgT (stmtTypeName s) st
      rcases hst : stepTick cfg cfgT (stmtTypeName s) st with ⟨st₀, o⟩
      rw [hst] at hspec
      obtain ⟨h1, h2, _h3, h4⟩ := hspec
      cases s with
      | defStmt name params body =>
        simp only [execStmt, stmtTypeName] at hst ⊢
        rw [hst]
        cases o with
        | some msg => exact StepsInv.tick h1 h2 h
        | none =>
          dsimp only
          exact (StepsInv.tickOk h1 h2 (h4 rfl)).trans (StepsInv.of_eq rfl rfl (h4 rfl))
      | assign name value =>
        simp only [execStmt, stmtTypeName] at hst ⊢
        rw [hst]
        cases o with
        | some msg => exact StepsInv.tick h1 h2 h
        | none =>
          have hA : StepsInv cfg.maxSteps st st₀ false := StepsInv.tickOk h1 h2 (h4 rfl)
          dsimp only
          rcases hv : evalExpr cfg cfgT fuel value env st₀ with ⟨st₁, r⟩
          have hE := ihE value env st₀ (h4 rfl); rw [hv] at hE
          cases r <;> exact hA.trans hE
      | exprStmt e =>
        simp only [execStmt, stmtTypeName] at hst ⊢
        rw [hst]
        cases o with
        | some msg => exact StepsInv.tick h1 h2 h
        | none =>
          have hA : StepsInv cfg.maxSteps st st₀ false := StepsInv.tickOk h1 h2 (h4 rfl)
          dsimp only
          rcases hv : evalExpr cfg cfgT fuel e env st₀ with ⟨st₁, r⟩
          have hE := ihE e env st₀ (h4 rfl); rw [hv] at hE
          cases r <;> exact hA.trans hE
      | ret value =>
        simp only [execStmt, stmtTypeName] at hst ⊢
        rw [hst]
        cases o with
        | some msg => exact StepsInv.tick h1 h2 h
        | none =>
          have hA : StepsInv cfg.maxSteps st st₀ false := StepsInv.tickOk h1 h2 (h4 rfl)
          cases value with
          | none =>
            dsimp only
            exact StepsInv.tickOk h1 h2 (h4 rfl)
          | some e =>
            dsimp only
            rcases hv : evalExpr cfg cfgT fuel e env st₀ with ⟨st₁, r⟩
            have hE := ihE e env st₀ (h4 rfl); rw [hv] at hE
            cases r <;> exact hA.trans hE
      | brk =>
        simp only [execStmt, stmtTypeName] at hst ⊢
        rw [hst]
        cases o with
        | some msg => exact StepsInv.tick h1 h2 h
        | none =>
          dsimp only
          exact StepsInv.tickOk h1 h2 (h4 rfl)
      | ifStmt cond thenB elseB =>
        simp only [execStmt, stmtTypeName] at hst ⊢
        rw [hst]
        cases o with
        | some msg => exact StepsInv.tick h1 h2 h
        | none =>
          have hA : StepsInv cfg.maxSteps st st₀ false := StepsInv.tickOk h1 h2 (h4 rfl)
          dsimp only
          rcases hv : evalExpr cfg cfgT fuel cond env st₀ with ⟨st₁, r⟩
          have hE := ihE cond env st₀ (h4 rfl); rw [hv] at hE
          cases r with
          | error sig => exact hA.trans hE
          | ok c =>
            dsimp only
            split
            · exact hA.trans (hE.trans (ihB thenB env st₁ hE.strong))
            · cases elseB with
              | some b => exact hA.trans (hE.trans (ihB b env st₁ hE.strong))
              | none => exact hA.trans hE
      | whileStmt cond body =>
        simp only [execStmt, stmtTypeName] at hst ⊢
        rw [hst]
        cases o with
        | some msg => exact StepsInv.tick h1 h2 h
        | none =>
          dsimp only
          exact (StepsInv.tickOk h1 h2 (h4 rfl)).trans (ihW cond body env st₀ (h4 rfl))
      | forStmt v iter body =>
        simp only [execStmt, stmtTypeName] at hst ⊢
        rw [hst]
        cases o with
        | some msg => exact StepsInv.tick h1 h2 h
        | none =>
          have hA : StepsInv cfg.maxSteps st st₀ false := StepsInv.tickOk h1 h2 (h4 rfl)
          dsimp only
          rcases hv : evalExpr cfg cfgT fuel iter env st₀ with ⟨st₁, r⟩
          have hE := ihE iter env st₀ (h4 rfl); rw [hv] at hE
          cases r with
          | error sig => exact hA.trans hE
          | ok itv =>
            cases itv with
            | varr items => exact hA.trans (hE.trans (ihF v items body env st₁ hE.strong))
            | vnull => exact hA.trans hE.weaken
            | vbool b => exact hA.trans hE.weaken
            | vnum n => exact hA.trans hE.weaken
            | vstr s => exact hA.trans hE.weaken
            | vobj pairs => exact hA.trans hE.weaken
      | withPolicy pe body =>
        simp only [execStmt, stmtTypeName] at hst ⊢
        rw [hst]
        cases o with
        | some msg => exact StepsInv.tick h1 h2 h
        | none =>
          have hA : StepsInv cfg.maxSteps st st₀ false := StepsInv.tickOk h1 h2 (h4 rfl)
          dsimp only
          rcases hv : evalExpr cfg cfgT fuel pe env st₀ with ⟨st₁, r⟩
          have hE := ihE pe env st₀ (h4 rfl); rw [hv] at hE
          cases r with
          | error sig => exact hA.trans hE
          | ok pv =>
            dsimp only
            split
            · exact hA.trans hE.weaken
            · rcases hb : execBlock cfg cfgT fuel body env
                  { st₁ with policy := overlayPolicy st₁.policy pv } with ⟨st₃, env₃, rb⟩
              have hB := ihB body env { st₁ with policy := overlayPolicy st₁.policy pv }
                hE.strong
              rw [hb] at hB
              have hB' : StepsInv cfg.maxSteps st₁
                  { st₃ with policy := st₁.policy } (isErrMsgE rb) :=
                StepsInv.congr rfl rfl ((StepsInv.of_eq rfl rfl hE.strong).trans hB)
              exact hA.trans (hE.trans hB')
      | guard e =>
        simp only [execStmt, stmtTypeName] at hst ⊢
        rw [hst]
        cases o with
        | some msg => exact StepsInv.tick h1 h2 h
        | none =>
          have hA : StepsInv cfg.maxSteps st st₀ false := StepsInv.tickOk h1 h2 (h4 rfl)
          dsimp only
          rcases hv : evalExpr cfg cfgT fuel e env st₀ with ⟨st₁, r⟩
          have hE := ihE e env st₀ (h4 rfl); rw [hv] at hE
          cases r with
          | error sig => exact hA.trans hE
          | ok v =>
            dsimp only
            split
            · exact hA.trans hE
            · exact hA.trans hE.weaken
    · -- execBlock
      intro ss env st h
      cases ss with
      | nil => exact StepsInv.refl h
      | cons s rest =>
        simp only [execBlock]
        rcases hs : execStmt cfg cfgT fuel s env st with ⟨st₁, env₁, r₁⟩
        have hS := ihS s env st h; rw [hs] at hS
        cases r₁ with
        | ok u =>
          cases u
          exact hS.trans (ihB rest env₁ st₁ hS.strong)
        | error sig => exact hS
    · -- execWhile
      intro c body env st h
      simp only [execWhile]
      rcases hv : evalExpr cfg cfgT fuel c env st with ⟨st₁, r⟩
      have hE := ihE c env st h; rw [hv] at hE
      cases r with
      | error sig => exact hE
      | ok cv =>
        dsimp only
        split
        · exact hE
        · rcases hb : execBlock cfg cfgT fuel body env st₁ with ⟨st₂, env₂, rb⟩
          have hB := ihB body env st₁ hE.strong; rw [hb] at hB
          cases rb with
          | ok u =>
            cases u
            exact hE.trans (hB.trans (ihW c body env₂ st₂ hB.strong))
          | error sig => cases sig <;> exact hE.trans hB
    · -- execFor
      intro v items body env st h
      cases items with
      | nil => exact StepsInv.refl h
      | cons item rest =>
        simp only [execFor]
        rcases hb : execBlock cfg cfgT fuel body (alistSet env v item) st with ⟨st₁, env₁, rb⟩
        have hB := ihB body (alistSet env v item) st h; rw [hb] at hB
        cases rb with
        | ok u =>
          cases u
          exact hB.trans (ihF v rest body env₁ st₁ hB.strong)
        | error sig => cases sig <;> exact hB

/-! ## Example run configuration shared by the concrete theorems -/

/-- A permissive outer policy: all five registered tools allowed. -/
def examplePolicy : Policy :=
  { allowTools := [.vstr "READ_FILE", .vstr "WRITE_FILE", .vstr "PATCH_FILE",
      .vstr "SEARCH", .vstr "RUN_CMD"],
    allowCommands := [], requireApproval := false, maxFileBytes := 300000 }

def exampleSt : St := initialSt "/proj" examplePolicy []

/-- The `with policy { allowActions: ["READ_FILE"] }` header expression. -/
def restrictedOverlay : Expr := .obj [("allowActions", .arr [.str "READ_FILE"])]

/-- Arguments of the example `WRITE_FILE` dispatch. -/
def writeArgsExpr : Expr := .obj [("path", .str "a.txt"), ("content", .str "hi")]

/-- Evaluating the (pure, literal-only) `with policy` header expression never
changes the interpreter state, at any fuel. -/
theorem evalOverlay_fst (cfg : VMConfig) (cfgT : BudgetConfig) (fuel : Nat) (env : Env)
    (st : St) : (evalExpr cfg cfgT fuel restrictedOverlay env st).1 = st := by
  rcases fuel with _ | _ | _ | _ | _ | fuel <;> rfl

/-! ## Claim theorems -/

/-- **C1** (corrected): `safeResolve` does not reject every absolute path — an
absolute path that resolves inside the project root is accepted, and here
`WRITE_FILE` on such a path succeeds and creates the file, contradicting the
claim that every path with an absolute prefix fails with the sandbox error
kind and leaves the disk unchanged. -/
theorem C1_counterexample :
    (strStartsWith "/proj/out.txt" "/" = true)
  ∧ WRITE_FILE_run "/proj" [] ⟨"/proj/out.txt", "hi", none⟩ =
      ([("/proj/out.txt", "hi")], .ok (.vstr "WROTE /proj/out.txt (2 chars)")) :=
  ⟨rfl, rfl⟩

/-- **C1** (amended): for every path `p` whose resolution against the project
root is not a strict descendant of `root + "/"` — in particular every
relative path whose `..` escapes the root and every absolute path outside the
root — each of the path-taking tools `READ_FILE`, `WRITE_FILE` and
`PATCH_FILE` fails with the `Path escape blocked` sandbox error and the file
system is unchanged.  (`SEARCH` takes no path argument and its walk never
leaves the root.) -/
theorem C1_sandbox_escape_blocked (root p : String) (policy : Policy) (fs : FS)
    (mb : Option Int) (content : String) (mode : Option String) (patch : String)
    (h : strStartsWith (posixResolve root p) (posixResolve root "" ++ "/") = false) :
    READ_FILE_run root policy fs ⟨p, mb⟩ = (fs, .error ("Path escape blocked: " ++ p))
  ∧ WRITE_FILE_run root fs ⟨p, content, mode⟩ = (fs, .error ("Path escape blocked: " ++ p))
  ∧ PATCH_FILE_run root fs ⟨p, patch⟩ = (fs, .error ("Path escape blocked: " ++ p)) := by
  have hsr : safeResolve root p = .error ("Path escape blocked: " ++ p) := by
    simp [safeResolve, h]
  exact ⟨by simp [READ_FILE_run, hsr], by simp [WRITE_FILE_run, hsr],
    by simp [PATCH_FILE_run, hsr]⟩

theorem C1_sandbox_escape_blocked_witness :
    (strStartsWith (posixResolve "/proj" "../etc/passwd") (posixResolve "/proj" "" ++ "/") = false)
  ∧ WRITE_FILE_run "/proj" [("/proj/a.txt", "x")] ⟨"../etc/passwd", "hi", none⟩ =
      ([("/proj/a.txt", "x")], .error "Path escape blocked: ../etc/passwd") :=
  ⟨rfl, (C1_sandbox_escape_blocked "/proj" "../etc/passwd" examplePolicy
    [("/proj/a.txt", "x")] none "hi" none "p" rfl).2.1⟩

/-- **C3** (counterexample): with `maxSteps = 1`, a two-statement program
produces **two** `stmt` events — the second statement emits its event before
the budget check throws — followed by the `BudgetExceeded: maxSteps` error
event; the original claim said at most one `stmt` event appears and the
second statement emits none. -/
theorem C3_counterexample :
    (VM_run { DEFAULT_VM_CONFIG with maxSteps := 1 } DEFAULT_BUDGET 20 "/proj" examplePolicy []
      [.assign "x" (.num 1), .assign "y" (.num 2)]).1.events =
      [.stmt 1 "Assign", .stmt 2 "Assign", .error 2 "BudgetExceeded: maxSteps"]
  ∧ countStmt ((VM_run { DEFAULT_VM_CONFIG with maxSteps := 1 } DEFAULT_BUDGET 20 "/proj"
      examplePolicy [] [.assign "x" (.num 1), .assign "y" (.num 2)]).1.events) = 2 :=
  ⟨rfl, rfl⟩

/-- **C3** (amended): for every run configured with `maxSteps = K`, the event
stream contains at most `K + 1` events of type `stmt`: the statement that
would become the `K+1`-th emits its `stmt` event and only then raises the
fatal `BudgetExceeded: maxSteps` error, and no further statement executes. -/
theorem C3_stmt_event_bound (cfg : VMConfig) (cfgT : BudgetConfig) (fuel : Nat)
    (projectRoot : String) (policy : Policy) (fs : FS) (program : List Stmt) :
    countStmt (VM_run cfg cfgT fuel projectRoot policy fs program).1.events ≤
      cfg.maxSteps + 1 := by
  have hB := (interpStepsInv cfg cfgT fuel).2.2.2.2.1 program []
    (initialSt projectRoot policy fs) (Nat.zero_le _)
  rcases hx : execBlock cfg cfgT fuel program [] (initialSt projectRoot policy fs)
    with ⟨st', env', r⟩
  rw [hx] at hB
  obtain ⟨ha, _, hc⟩ := hB
  dsimp only at ha hc
  have hc' : countStmt st'.events = st'.steps := by
    have h0 : countStmt (initialSt projectRoot policy fs).events = 0 := rfl
    have h1 : (initialSt projectRoot policy fs).steps = 0 := rfl
    omega
  have hbound : countStmt st'.events ≤ cfg.maxSteps + 1 := by omega
  unfold VM_run
  rw [hx]
  cases r with
  | ok u => cases u; exact hbound
  | error sig =>
    cases sig <;> (dsimp only; rw [countStmt_append, countStmt_error]; omega)

/-- **C5** (code bug): the tokenizer in the repository rejects `<` (and so
`<=`, `>=`) as an unexpected character and classifies `guard` (likewise
`class`, `for`, `with`, `policy`, `retry`, `backoff`, `timeout`) as a plain
identifier, although the repository's own parser consumes `SYM "<"` and
`KW "guard"` tokens and its docs document those forms. -/
theorem C5_tokenizer_rejects_guard_and_comparisons :
    tokenize "guard x < 2" = .error "Unexpected char '<' (line 1)"
  ∧ tokenize "x <= 2" = .error "Unexpected char '<' (line 1)"
  ∧ tokenize "guard" = .ok [.IDENT "guard", .NEWLINE, .EOF]
  ∧ KEYWORDS.contains "guard" = false
  ∧ KEYWORDS.contains "with" = false
  ∧ singleSyms.contains '<' = false :=
  ⟨rfl, rfl, rfl, rfl, rfl, rfl⟩

set_option maxHeartbeats 4000000 in
/-- **C7** (counterexample): a top-level variable is not visible inside a
function body — `x = 42; def f(): return x; y = f()` leaves `y` bound to
`null`, not `42`. -/
theorem C7_counterexample :
    (VM_run DEFAULT_VM_CONFIG DEFAULT_BUDGET 20 "/proj" examplePolicy []
      [.assign "x" (.num 42), .defStmt "f" [] [.ret (some (.var "x"))],
       .assign "y" (.call "f" [])]).2.1
    = [("x", .vnum 42), ("y", .vnull)] := rfl

/-- **C7** (amended): a user-defined function body is evaluated against a
fresh environment binding only the parameters (positionally, missing
arguments become `null`); the global environment is *not* part of the chain,
so an unshadowed top-level variable evaluates to `null` inside the body,
while parameters are visible. -/
theorem C7_function_scope : ∀ v : Value,
    ((execBlock DEFAULT_VM_CONFIG DEFAULT_BUDGET 12
        [.defStmt "f" [] [.ret (some (.var "x"))], .assign "y" (.call "f" [])]
        [("x", v)] exampleSt).2.1
      = [("x", v), ("y", .vnull)])
  ∧ ((execBlock DEFAULT_VM_CONFIG DEFAULT_BUDGET 12
        [.defStmt "g" ["p"] [.ret (some (.var "p"))], .assign "z" (.call "g" [.var "x"])]
        [("x", v)] exampleSt).2.1
      = [("x", v), ("z", v)]) :=
  fun _ => ⟨rfl, rfl⟩

/-- **C8** (code bug): the sub-workflow executor's `opts.args` pre-binding
writes through `(vm as any).globalEnv?.set(...)`, but class `VM` has no
`globalEnv` member, so the optional chain is a silent no-op: a child script
referencing a supplied arg sees `null`.  Here `call(child, {args: {k1: v}})`
with child `y = k1` leaves `y = null` for every `v`. -/
theorem C8_subworkflow_args_not_bound : ∀ (v : Value) (rest : List (String × Value)),
    (subworkflowChildRun DEFAULT_VM_CONFIG DEFAULT_BUDGET 10 "/proj" examplePolicy []
      (("k1", v) :: rest) [.assign "y" (.var "k1")]).2.1 = [("y", .vnull)] :=
  fun _ _ => rfl

/-- **C9** (confirmed): `PATCH_FILE` on an existing target replaces the whole
file contents with the remainder of the patch when and only when the patch
starts with the literal `REPLACE:\n` marker; any other prefix raises an
explicit error and leaves the file system unchanged. -/
theorem C9_patch_replace_marker (root p patch : String) (fs : FS) (rp before : String)
    (hres : safeResolve root p = .ok rp) (hfile : fsGet fs rp = some before) :
    (strStartsWith patch "REPLACE:\n" = true →
      PATCH_FILE_run root fs ⟨p, patch⟩ =
        (fsSet fs rp (strDrop patch ("REPLACE:\n".length)),
         .ok (.vstr ("PATCHED " ++ p ++ " (replaced)"))))
  ∧ (strStartsWith patch "REPLACE:\n" = false →
      PATCH_FILE_run root fs ⟨p, patch⟩ =
        (fs, .error "PATCH_FILE: unsupported patch format. Use 'REPLACE:\\n<content>' in v0.")) := by
  constructor <;> intro hp <;> simp [PATCH_FILE_run, hres, hfile, hp]

theorem C9_patch_replace_marker_witness :
    (safeResolve "/proj" "a.txt" = .ok "/proj/a.txt")
  ∧ (fsGet [("/proj/a.txt", "old")] "/proj/a.txt" = some "old")
  ∧ PATCH_FILE_run "/proj" [("/proj/a.txt", "old")] ⟨"a.txt", "REPLACE:\nnew"⟩ =
      ([("/proj/a.txt", "new")], .ok (.vstr "PATCHED a.txt (replaced)"))
  ∧ PATCH_FILE_run "/proj" [("/proj/a.txt", "old")] ⟨"a.txt", "diff --git"⟩ =
      ([("/proj/a.txt", "old")],
       .error "PATCH_FILE: unsupported patch format. Use 'REPLACE:\\n<content>' in v0.") :=
  ⟨rfl, rfl,
   (C9_patch_replace_marker "/proj" "a.txt" "REPLACE:\nnew" [("/proj/a.txt", "old")]
     "/proj/a.txt" "old" rfl rfl).1 rfl,
   (C9_patch_replace_marker "/proj" "a.txt" "diff --git" [("/proj/a.txt", "old")]
     "/proj/a.txt" "old" rfl rfl).2 rfl⟩

/-- **C2** (confirmed): `with policy { allowActions: ["READ_FILE"] }` blocks a
`WRITE_FILE` dispatch inside the block with a `PolicyViolation` (and no file
is written), the previously active policy object is restored on *every* exit
of the block (the first conjunct quantifies over an arbitrary block body, so
it covers normal completion, thrown errors, `return` and `break`), the
overlay touches no policy field other than `allowTools`, and immediately
after the block a `WRITE_FILE` dispatch under the permissive outer policy
succeeds. -/
theorem C2_with_policy_scoping :
    (∀ (cfg : VMConfig) (cfgT : BudgetConfig) (fuel : Nat) (body : List Stmt) (env : Env)
        (st : St),
      ((execStmt cfg cfgT (fuel + 1) (.withPolicy restrictedOverlay body) env st).1).policy
        = st.policy)
  ∧ (∀ P : Policy,
      overlayPolicy P (.vobj [("allowActions", .varr [.vstr "READ_FILE"])])
        = { P with allowTools := [.vstr "READ_FILE"] })
  ∧ ((VM_run DEFAULT_VM_CONFIG DEFAULT_BUDGET 20 "/proj" examplePolicy []
        [.withPolicy restrictedOverlay
          [.exprStmt (.call "apply" [.str "WRITE_FILE", writeArgsExpr])]]).2.2
      = .error (.err "PolicyViolation: tool not allowed: WRITE_FILE")
    ∧ (VM_run DEFAULT_VM_CONFIG DEFAULT_BUDGET 20 "/proj" examplePolicy []
        [.withPolicy restrictedOverlay
          [.exprStmt (.call "apply" [.str "WRITE_FILE", writeArgsExpr])]]).1.fs = []
    ∧ (VM_run DEFAULT_VM_CONFIG DEFAULT_BUDGET 20 "/proj" examplePolicy []
        [.withPolicy restrictedOverlay
          [.exprStmt (.call "apply" [.str "WRITE_FILE", writeArgsExpr])]]).1.policy
      = examplePolicy)
  ∧ ((VM_run DEFAULT_VM_CONFIG DEFAULT_BUDGET 20 "/proj" examplePolicy []
        [.withPolicy restrictedOverlay [.assign "x" (.num 1)],
         .exprStmt (.call "apply" [.str "WRITE_FILE", writeArgsExpr])]).2.2 = .ok ()
    ∧ (VM_run DEFAULT_VM_CONFIG DEFAULT_BUDGET 20 "/proj" examplePolicy []
        [.withPolicy restrictedOverlay [.assign "x" (.num 1)],
         .exprStmt (.call "apply" [.str "WRITE_FILE", writeArgsExpr])]).1.fs
      = [("/proj/a.txt", "hi")]) := by
  refine ⟨?_, fun P => rfl, ⟨rfl, rfl, rfl⟩, ⟨rfl, rfl⟩⟩
  intro cfg cfgT fuel body env st
  simp only [execStmt, stmtTypeName]
  rcases hst : stepTick cfg cfgT "WithPolicy" st with ⟨st₀, o⟩
  have hpol0 : st₀.policy = st.policy := by
    have h3 := (stepTick_spec cfg cfgT "WithPolicy" st).2.2.1
    rw [hst] at h3; exact h3
  cases o with
  | some msg => exact hpol0
  | none =>
    dsimp only
    have hov := evalOverlay_fst cfg cfgT fuel env st₀
    rcases hv : evalExpr cfg cfgT fuel restrictedOverlay env st₀ with ⟨st₁, r⟩
    rw [hv] at hov
    dsimp only at hov
    cases r with
    | error sig =>
      dsimp only
      rw [hov, hpol0]
    | ok pv =>
      dsimp only
      split
      · rw [hov, hpol0]
      · rcases hb : execBlock cfg cfgT fuel body env
            { st₁ with policy := overlayPolicy st₁.policy pv } with ⟨st₃, env₃, rb⟩
        dsimp only
        rw [hov, hpol0]

/-- **C4** (counterexample): the interpreter coerces with JS `Boolean`, under
which every object is truthy — an `if` whose condition is the empty array
takes the *then* branch, and `jsBool` maps `[]` and `{}` to `true`,
contradicting the claim that `[]` and `{}` are treated as false. -/
theorem C4_counterexample :
    jsBool (.varr []) = true
  ∧ jsBool (.vobj []) = true
  ∧ (execStmt DEFAULT_VM_CONFIG DEFAULT_BUDGET 10
      (.ifStmt (.var "c") [.assign "x" (.num 1)] (some [.assign "x" (.num 2)]))
      [("c", .varr [])] exampleSt).2.1
    = [("c", .varr []), ("x", .vnum 1)] :=
  ⟨rfl, rfl, rfl⟩

/-- **C4** (amended): in every boolean context of the interpreter (`if` and
`while` conditions, `guard`, unary `not`, `and`/`or` operands) exactly the
values `null`, `false`, `0` and `""` are treated as false; every other value
— including `[]` and `{}` — is treated as true. -/
theorem C4_truthiness :
    (∀ v : Value, jsBool v = false ↔
      (v = .vnull ∨ v = .vbool false ∨ v = .vnum 0 ∨ v = .vstr ""))
  ∧ (∀ v : Value,
      (execStmt DEFAULT_VM_CONFIG DEFAULT_BUDGET 10
        (.ifStmt (.var "c") [.assign "x" (.num 1)] (some [.assign "x" (.num 2)]))
        [("c", v)] exampleSt).2.1
      = [("c", v), ("x", .vnum (if jsBool v then 1 else 2))])
  ∧ (∀ v : Value,
      (execStmt DEFAULT_VM_CONFIG DEFAULT_BUDGET 10 (.whileStmt (.var "c") [.brk])
        [("c", v)] exampleSt).1.steps = if jsBool v then 2 else 1)
  ∧ (∀ v : Value,
      (execStmt DEFAULT_VM_CONFIG DEFAULT_BUDGET 10 (.guard (.var "c"))
        [("c", v)] exampleSt).2.2
      = if jsBool v then .ok ()
        else .error (.err ("Guard failed: " ++ guardDetail (.var "c"))))
  ∧ (∀ v : Value,
      (evalExpr DEFAULT_VM_CONFIG DEFAULT_BUDGET 5 (.unary "not" (.var "c"))
        [("c", v)] exampleSt).2 = .ok (.vbool (!jsBool v)))
  ∧ (∀ v w : Value,
      (evalExpr DEFAULT_VM_CONFIG DEFAULT_BUDGET 5 (.binary "and" (.var "c") (.var "d"))
        [("c", v), ("d", w)] exampleSt).2 = .ok (.vbool (jsBool v && jsBool w)))
  ∧ (∀ v w : Value,
      (evalExpr DEFAULT_VM_CONFIG DEFAULT_BUDGET 5 (.binary "or" (.var "c") (.var "d"))
        [("c", v), ("d", w)] exampleSt).2 = .ok (.vbool (jsBool v || jsBool w))) := by
  refine ⟨?_, ?_, ?_, ?_, ?_, ?_, ?_⟩
  · intro v
    cases v <;> simp [jsBool]
  · intro v
    cases hv : jsBool v <;>
      simp [execStmt, execBlock, evalExpr, stepTick, checkBudgets, checkBudget, stmtTypeName,
        exampleSt, initialSt, DEFAULT_VM_CONFIG, DEFAULT_BUDGET, alistGet, alistSet, hv]
  · intro v
    cases hv : jsBool v <;>
      simp [execStmt, execBlock, execWhile, evalExpr, stepTick, checkBudgets, checkBudget,
        stmtTypeName, exampleSt, initialSt, DEFAULT_VM_CONFIG, DEFAULT_BUDGET, alistGet,
        alistSet, hv]
  · intro v
    cases hv : jsBool v <;>
      simp [execStmt, execBlock, evalExpr, stepTick, checkBudgets, checkBudget, stmtTypeName,
        exampleSt, initialSt, DEFAULT_VM_CONFIG, DEFAULT_BUDGET, alistGet, alistSet, hv]
  · intro v
    simp [evalExpr, alistGet, exampleSt, initialSt]
  · intro v w
    simp [evalExpr, applyBinary, alistGet, exampleSt, initialSt]
  · intro v w
    simp [evalExpr, applyBinary, alistGet, exampleSt, initialSt]

/-- The flags set by `detect` never change the sliding window itself. -/
theorem detect_recentActions (cfg : LoopDetectorConfig) (st : LoopState) :
    (detect cfg st).recentActions = st.recentActions := by
  simp only [detect]
  repeat' split
  all_goals rfl

/-- The flags set by `detect` never change the failure streak counter. -/
theorem detect_consecutiveFailures (cfg : LoopDetectorConfig) (st : LoopState) :
    (detect cfg st).consecutiveFailures = st.consecutiveFailures := by
  simp only [detect]
  repeat' split
  all_goals rfl

/-- `detect` resets the three flag fields on entry, so its result depends only
on the window and the failure counter of the incoming state. -/
theorem detect_flags_only (cfg : LoopDetectorConfig) (st st' : LoopState)
    (hra : st.recentActions = st'.recentActions)
    (hcf : st.consecutiveFailures = st'.consecutiveFailures) :
    detect cfg st = detect cfg st' := by
  cases st
  cases st'
  dsimp only at hra hcf
  subst hra
  subst hcf
  rfl

/-- **C6** (counterexample): six alternating `READ_FILE`/`WRITE_FILE` plans,
all succeeding with distinct args, make the detector flag a loop of kind
`action_cycle`, not `oscillation` — the length-2 cycle rule is checked first
and already matches strict A-B alternation. -/
theorem C6_counterexample :
    ((recordMany LOOP_DEFAULT_CONFIG LoopState.initial
      [("READ_FILE", "h1", true), ("WRITE_FILE", "h2", true), ("READ_FILE", "h1", true),
       ("WRITE_FILE", "h2", true), ("READ_FILE", "h1", true),
       ("WRITE_FILE", "h2", true)]).loopDetected = true)
  ∧ ((recordMany LOOP_DEFAULT_CONFIG LoopState.initial
      [("READ_FILE", "h1", true), ("WRITE_FILE", "h2", true), ("READ_FILE", "h1", true),
       ("WRITE_FILE", "h2", true), ("READ_FILE", "h1", true),
       ("WRITE_FILE", "h2", true)]).loopType = some "action_cycle")
  ∧ ((recordMany LOOP_DEFAULT_CONFIG LoopState.initial
      [("READ_FILE", "h1", true), ("WRITE_FILE", "h2", true), ("READ_FILE", "h1", true),
       ("WRITE_FILE", "h2", true), ("READ_FILE", "h1", true),
       ("WRITE_FILE", "h2", true)]).loopType ≠ some "oscillation") :=
  ⟨rfl, rfl, by decide⟩

/-- **C6** (amended): if six consecutively recorded plans follow the strict
alternating action pattern A,B,A,B,A,B with A ≠ B (all succeeding, whatever
their args hashes), the detector reports a detected loop after the sixth
record, but its kind is `action_cycle`: the length-2 action-cycle rule
(checked before the oscillation rule) already matches, so the `oscillation`
kind is unreachable for this pattern. -/
theorem C6_alternating_actions_cycle (a b ha hb : String) (hne : a ≠ b) :
    ((recordMany LOOP_DEFAULT_CONFIG LoopState.initial
      [(a, ha, true), (b, hb, true), (a, ha, true), (b, hb, true), (a, ha, true),
       (b, hb, true)]).loopDetected = true)
  ∧ ((recordMany LOOP_DEFAULT_CONFIG LoopState.initial
      [(a, ha, true), (b, hb, true), (a, ha, true), (b, hb, true), (a, ha, true),
       (b, hb, true)]).loopType = some "action_cycle") := by
  have hab : (a == b) = false := beq_eq_false_iff_ne.mpr hne
  have step : ∀ (st : LoopState) (x h : String),
      st.recentActions.length + 1 ≤ 20 →
      record LOOP_DEFAULT_CONFIG (detect LOOP_DEFAULT_CONFIG st) x h true
        = detect LOOP_DEFAULT_CONFIG
            { recentActions := st.recentActions ++ [⟨x, h, true⟩]
              consecutiveFailures := 0
              loopDetected := false
              loopType := none
              suggestion := none } := by
    intro st x h hlen
    simp only [record, detect_recentActions]
    rw [if_neg]
    · exact detect_flags_only _ _ _ rfl rfl
    · simp only [List.length_append, List.length_cons, List.length_nil, LOOP_DEFAULT_CONFIG,
        gt_iff_lt, not_lt]
      omega
  have h1 : record LOOP_DEFAULT_CONFIG LoopState.initial a ha true
      = detect LOOP_DEFAULT_CONFIG
          { recentActions := [⟨a, ha, true⟩]
            consecutiveFailures := 0
            loopDetected := false
            loopType := none
            suggestion := none } := rfl
  have h6 : recordMany LOOP_DEFAULT_CONFIG LoopState.initial
      [(a, ha, true), (b, hb, true), (a, ha, true), (b, hb, true), (a, ha, true),
       (b, hb, true)]
      = detect LOOP_DEFAULT_CONFIG
          { recentActions := [⟨a, ha, true⟩, ⟨b, hb, true⟩, ⟨a, ha, true⟩, ⟨b, hb, true⟩,
              ⟨a, ha, true⟩, ⟨b, hb, true⟩]
            consecutiveFailures := 0
            loopDetected := false
            loopType := none
            suggestion := none } := by
    simp only [recordMany]
    rw [h1, step, step, step, step, step]
    · rfl
    all_goals
      simp only [List.length_append, List.length_cons, List.length_nil]
    all_goals omega
  refine ⟨?_, ?_⟩ <;> rw [h6] <;>
    simp [detect, detectExactRepeat, detectCycle, detectCycleAt, priorRepeats,
      listTakeRight, LOOP_DEFAULT_CONFIG, hab]

theorem C6_alternating_actions_cycle_witness :
    ("READ_FILE" ≠ "WRITE_FILE")
  ∧ ((recordMany LOOP_DEFAULT_CONFIG LoopState.initial
      [("READ_FILE", "ha", true), ("WRITE_FILE", "hb", true), ("READ_FILE", "ha", true),
       ("WRITE_FILE", "hb", true), ("READ_FILE", "ha", true),
       ("WRITE_FILE", "hb", true)]).loopDetected = true)
  ∧ ((recordMany LOOP_DEFAULT_CONFIG LoopState.initial
      [("READ_FILE", "ha", true), ("WRITE_FILE", "hb", true), ("READ_FILE", "ha", true),
       ("WRITE_FILE", "hb", true), ("READ_FILE", "ha", true),
       ("WRITE_FILE", "hb", true)]).loopType = some "action_cycle") :=
  ⟨by decide,
   (C6_alternating_actions_cycle "READ_FILE" "WRITE_FILE" "ha" "hb" (by decide)).1,
   (C6_alternating_actions_cycle "READ_FILE" "WRITE_FILE" "ha" "hb" (by decide)).2⟩

/-- **C10** (amended): lookups at the DSL surface are total and yield `null`
— an unbound variable, an out-of-range numeric array index, an absent object
key, and an index that is neither a number nor a string all evaluate to
`null` — except that a *string* index on an array follows JS property
lookup: a canonical numeric string returns the element (and `"length"` the
length) rather than `null`. -/
theorem C10_lookup_totality :
    (∀ (env : Env) (name : String) (st : St), alistGet env name = none →
      (evalExpr DEFAULT_VM_CONFIG DEFAULT_BUDGET 5 (.var name) env st).2 = .ok .vnull)
  ∧ (∀ (items : List Value) (n : Int) (st : St),
      (n < 0 ∨ (items.length : Int) ≤ n) →
      (evalExpr DEFAULT_VM_CONFIG DEFAULT_BUDGET 6 (.index (.var "a") (.var "i"))
        [("a", .varr items), ("i", .vnum n)] st).2 = .ok .vnull)
  ∧ (∀ (pairs : List (String × Value)) (k : String) (st : St), alistGet pairs k = none →
      (evalExpr DEFAULT_VM_CONFIG DEFAULT_BUDGET 6 (.index (.var "o") (.var "k"))
        [("o", .vobj pairs), ("k", .vstr k)] st).2 = .ok .vnull)
  ∧ (∀ (items : List Value) (b : Bool) (st : St),
      (evalExpr DEFAULT_VM_CONFIG DEFAULT_BUDGET 6 (.index (.var "a") (.var "i"))
        [("a", .varr items), ("i", .vbool b)] st).2 = .ok .vnull) := by
  refine ⟨?_, ?_, ?_, fun items b st => rfl⟩
  · intro env name st h
    have e1 : evalExpr DEFAULT_VM_CONFIG DEFAULT_BUDGET 5 (.var name) env st
        = (st, .ok ((alistGet env name).getD .vnull)) := rfl
    rw [e1, h]
    rfl
  · intro items n st h
    have e1 : (evalExpr DEFAULT_VM_CONFIG DEFAULT_BUDGET 6 (.index (.var "a") (.var "i"))
        [("a", .varr items), ("i", .vnum n)] st).2 = .ok (jsArrayGetNum items n) := rfl
    rw [e1]
    suffices hs : jsArrayGetNum items n = .vnull by rw [hs]
    unfold jsArrayGetNum
    rcases h with hn | hn
    · rw [if_pos hn]
      rfl
    · have hn0 : ¬n < 0 := by omega
      rw [if_neg hn0]
      have hnone : items.get? n.toNat = none := by
        rw [List.get?_eq_none]
        omega
      rw [hnone]
      rfl
  · intro pairs k st h
    have e1 : (evalExpr DEFAULT_VM_CONFIG DEFAULT_BUDGET 6 (.index (.var "o") (.var "k"))
        [("o", .vobj pairs), ("k", .vstr k)] st).2
        = .ok ((alistGet pairs k).getD .vnull) := rfl
    rw [e1, h]
    rfl

theorem C10_lookup_totality_witness :
    ((evalExpr DEFAULT_VM_CONFIG DEFAULT_BUDGET 5 (.var "zzz") [] exampleSt).2 = .ok .vnull)
  ∧ ((evalExpr DEFAULT_VM_CONFIG DEFAULT_BUDGET 6 (.index (.var "a") (.var "i"))
      [("a", .varr [.vnum 7]), ("i", .vnum 5)] exampleSt).2 = .ok .vnull)
  ∧ ((evalExpr DEFAULT_VM_CONFIG DEFAULT_BUDGET 6 (.index (.var "o") (.var "k"))
      [("o", .vobj [("k1", .vnum 1)]), ("k", .vstr "missing")] exampleSt).2 = .ok .vnull)
  ∧ ((evalExpr DEFAULT_VM_CONFIG DEFAULT_BUDGET 6 (.index (.var "a") (.var "i"))
      [("a", .varr [.vnum 7]), ("i", .vbool true)] exampleSt).2 = .ok .vnull) :=
  ⟨C10_lookup_totality.1 [] "zzz" exampleSt rfl,
   C10_lookup_totality.2.1 [.vnum 7] 5 exampleSt (Or.inr (by decide)),
   C10_lookup_totality.2.2.1 [("k1", .vnum 1)] "missing" exampleSt rfl,
   C10_lookup_totality.2.2.2 [.vnum 7] true exampleSt⟩

/-- **C10** (counterexample): indexing an array with the *string* `"0"` — a
non-numeric index in the claim's sense — returns the element (JS array
property semantics), not `null`. -/
theorem C10_counterexample :
    (evalExpr DEFAULT_VM_CONFIG DEFAULT_BUDGET 6 (.index (.var "a") (.str "0"))
      [("a", .varr [.vnum 7])] exampleSt).2 = .ok (.vnum 7)
  ∧ Value.vnum 7 ≠ Value.vnull :=
  ⟨rfl, by simp⟩

end PromptScript
